import Mathlib

/-!
Verification of GNSS_TimeSeries_Viewers against its specification.

Part 1 models `GPS_TOOLS/offsets.py` and `GPS_TOOLS/grace_ts_functions.py`.
Dates are whole days (`ℤ`, mirroring `datetime.date` and exact `timedelta.days`
differences), displacement values are `Option ℚ` where `none` models a numpy
NaN (NaN propagates through subtraction, and assignment of `np.nan` is `none`).

Part 2 models `2D_Strain/Strain_Code/hammond_strain.py` over `ℝ` (the code is
transcendental: degree-to-radian conversion, trigonometry, square roots), with
`np.linalg.inv` modelled as failing (`none`, i.e. `LinAlgError`) on an exactly
singular matrix.
-/

namespace GPSTools

/-- Mirrors `gps_io_functions.Timeseries` (a namedtuple with fields
`name, coords, dtarray, dN, dE, dU, Sn, Se, Su, EQtimes`), with `n` sample
epochs stored as parallel arrays. -/
structure Timeseries (n : ℕ) where
  name : String
  coords : ℚ × ℚ
  dtarray : Fin n → ℤ
  dN : Fin n → Option ℚ
  dE : Fin n → Option ℚ
  dU : Fin n → Option ℚ
  Sn : Fin n → Option ℚ
  Se : Fin n → Option ℚ
  Su : Fin n → Option ℚ
  EQtimes : List ℤ

/-- Mirrors the `Offsets` namedtuple of `offsets.py`
(`e_offsets, n_offsets, u_offsets, evdts`). -/
structure Offsets where
  e_offsets : ℚ
  n_offsets : ℚ
  u_offsets : ℚ
  evdts : ℤ

/-- One pass of the inner loop of `remove_offsets` (offsets.py lines 26-33) for
one component on one day: first the `==` check overwrites with NaN, then the
`>` check subtracts the offset. `t` is `Data0.dtarray[i]`, `get` selects the
component (`e_offsets`, `n_offsets` or `u_offsets`). -/
def removeStep (t : ℤ) (get : Offsets → ℚ) (temp : Option ℚ) (item : Offsets) : Option ℚ :=
  let temp1 := if t = item.evdts then none else temp
  if item.evdts < t then temp1.map (fun v => v - get item) else temp1

/-- The accumulated value of one component on one day after the whole inner
loop of `remove_offsets`. -/
def removeComponent (offsets_obj : List Offsets) (t : ℤ) (get : Offsets → ℚ)
    (x : Option ℚ) : Option ℚ :=
  offsets_obj.foldl (removeStep t get) x

/-- Mirrors `offsets.remove_offsets` (offsets.py lines 14-40): empty offset
list returns the input object; otherwise a new Timeseries is built with the
same `name, coords, dtarray, Sn, Se, Su, EQtimes` and per-day adjusted
`dN, dE, dU`. -/
def remove_offsets {n : ℕ} (Data0 : Timeseries n) (offsets_obj : List Offsets) :
    Timeseries n :=
  match offsets_obj with
  | [] => Data0
  | _ :: _ =>
    { name := Data0.name
      coords := Data0.coords
      dtarray := Data0.dtarray
      dN := fun i => removeComponent offsets_obj (Data0.dtarray i) Offsets.n_offsets (Data0.dN i)
      dE := fun i => removeComponent offsets_obj (Data0.dtarray i) Offsets.e_offsets (Data0.dE i)
      dU := fun i => removeComponent offsets_obj (Data0.dtarray i) Offsets.u_offsets (Data0.dU i)
      Sn := Data0.Sn
      Se := Data0.Se
      Su := Data0.Su
      EQtimes := Data0.EQtimes }

/-- Mirrors `np.nanmean` on a 1-D array: the mean of the non-NaN entries, NaN
(`none`) when every entry is NaN. -/
def nanmean (l : List (Option ℚ)) : Option ℚ :=
  let vs := l.filterMap id
  if vs = [] then none else some (vs.sum / vs.length)

/-- Mirrors `offsets.fit_single_offset` (offsets.py lines 43-73). The
`interval` is `(interval[0], interval[1])`; `before` collects indices with
`-offset_num_days <= dtarray[i] - interval[0] <= 0`, `after` those with
`0 <= dtarray[i] - interval[1] <= offset_num_days`. With fewer than two
samples on either side the offset is 0; otherwise it is
`nanmean(after) - nanmean(before)`. (The source's final
`if offset == np.nan` test is always false in numpy and is dead code.) -/
def fit_single_offset {n : ℕ} (dtarray : Fin n → ℤ) (data : Fin n → Option ℚ)
    (interval : ℤ × ℤ) (offset_num_days : ℤ) : Option ℚ :=
  let before := (List.finRange n).filter
    (fun i => -offset_num_days ≤ dtarray i - interval.1 ∧ dtarray i - interval.1 ≤ 0)
  let after := (List.finRange n).filter
    (fun i => 0 ≤ dtarray i - interval.2 ∧ dtarray i - interval.2 ≤ offset_num_days)
  if before = [] ∨ after = [] ∨ before.length = 1 ∨ after.length = 1 then some 0
  else Option.map₂ (· - ·) (nanmean (after.map (fun i => data i)))
    (nanmean (before.map (fun i => data i)))

/-- Mirrors the GRACE series as consumed by `pair_GPSGRACE`
(fields `dtarray, dN, dE, dU` of the GRACE Timeseries are read). -/
structure GraceTS (m : ℕ) where
  dtarray : Fin m → ℤ
  dN : Fin m → ℚ
  dE : Fin m → ℚ
  dU : Fin m → ℚ

/-- Mirrors the `Paired_TS` namedtuple of `grace_ts_functions.py`. -/
structure PairedTS where
  dtarray : List ℤ
  north : List (Option ℚ)
  east : List (Option ℚ)
  vert : List (Option ℚ)
  N_err : List (Option ℚ)
  E_err : List (Option ℚ)
  V_err : List (Option ℚ)
  u : List ℚ
  v : List ℚ
  w : List ℚ
  deriving DecidableEq

/-- Piecewise-linear interpolation through the points `pts`, mirroring
`np.interp` for increasing sample points: clamped to the first value below the
range and to the last value above it. -/
def interp1 (xq : ℚ) : List (ℚ × ℚ) → ℚ
  | [] => 0
  | [(_, y1)] => y1
  | (x1, y1) :: (x2, y2) :: rest =>
    if xq < x1 then y1
    else if xq ≤ x2 then y1 + (y2 - y1) * (xq - x1) / (x2 - x1)
    else interp1 xq ((x2, y2) :: rest)

/-- Mirrors `grace_ts_functions.pair_GPSGRACE` (lines 16-38). GPS epochs
strictly inside `(min GRACE epoch, max GRACE epoch)` are kept with their
values; the GRACE channels are resampled by linear interpolation on decimal
years. `get_float_times` lives in a module not in this source tree, so it is
passed in as the function `gft`. Python's `min`/`max` raise on an empty GRACE
series, modelled as `none`. -/
def pair_GPSGRACE {n m : ℕ} (GPS : Timeseries n) (GRACE : GraceTS m)
    (gft : ℤ → ℚ) : Option PairedTS :=
  let graceDts := (List.finRange m).map (fun j => GRACE.dtarray j)
  match graceDts.min?, graceDts.max? with
  | some mn, some mx =>
    let idxs := (List.finRange n).filter
      (fun i => mn < GPS.dtarray i ∧ GPS.dtarray i < mx)
    let decyear := idxs.map (fun i => gft (GPS.dtarray i))
    let grace_decyear := (List.finRange m).map (fun j => gft (GRACE.dtarray j))
    some
      { dtarray := idxs.map (fun i => GPS.dtarray i)
        north := idxs.map (fun i => GPS.dN i)
        east := idxs.map (fun i => GPS.dE i)
        vert := idxs.map (fun i => GPS.dU i)
        N_err := idxs.map (fun i => GPS.Sn i)
        E_err := idxs.map (fun i => GPS.Se i)
        V_err := idxs.map (fun i => GPS.Su i)
        u := decyear.map (fun t => interp1 t (grace_decyear.zip ((List.finRange m).map (fun j => GRACE.dE j))))
        v := decyear.map (fun t => interp1 t (grace_decyear.zip ((List.finRange m).map (fun j => GRACE.dN j))))
        w := decyear.map (fun t => interp1 t (grace_decyear.zip ((List.finRange m).map (fun j => GRACE.dU j)))) }
  | _, _ => none

end GPSTools

namespace GPSTools

theorem removeComponent_none (t : ℤ) (get : Offsets → ℚ) (l : List Offsets) :
    removeComponent l t get none = none := by
  induction l with
  | nil => rfl
  | cons it l ih =>
    show removeComponent l t get (removeStep t get none it) = none
    have h : removeStep t get none it = none := by
      unfold removeStep
      by_cases h1 : t = it.evdts <;> by_cases h2 : it.evdts < t <;> simp [h1, h2]
    rw [h, ih]

theorem removeComponent_eq (t : ℤ) (get : Offsets → ℚ) (l : List Offsets) (x : Option ℚ) :
    removeComponent l t get x =
      if ∃ it ∈ l, t = it.evdts then none
      else x.map (fun v => v - ((l.filter (fun it => it.evdts < t)).map get).sum) := by
  induction l generalizing x with
  | nil => cases x <;> simp [removeComponent]
  | cons it l ih =>
    have step : removeComponent (it :: l) t get x
        = removeComponent l t get (removeStep t get x it) := rfl
    rw [step, ih]
    by_cases h1 : t = it.evdts
    · have h2 : ¬ it.evdts < t := by omega
      have hs : removeStep t get x it = none := by simp [removeStep, h1, h2]
      rw [hs]
      simp [h1]
    · by_cases h2 : it.evdts < t
      · have hs : removeStep t get x it = x.map (fun v => v - get it) := by
          simp [removeStep, h1, h2]
        rw [hs]
        by_cases h3 : ∃ a ∈ l, t = a.evdts
        · simp [h1, h2, h3]
        · rw [List.filter_cons_of_pos (by simpa using h2), List.map_cons, List.sum_cons]
          rw [if_neg h3]
          have : ¬ ∃ a ∈ it :: l, t = a.evdts := by
            intro hc
            rcases hc with ⟨a, ha, hta⟩
            rcases List.mem_cons.mp ha with rfl | ha2
            · exact h1 hta
            · exact h3 ⟨a, ha2, hta⟩
          rw [if_neg this]
          cases x with
          | none => rfl
          | some v =>
            simp [Function.comp, sub_sub]
      · have hs : removeStep t get x it = x := by simp [removeStep, h1, h2]
        rw [hs]
        have hmem : (∃ a ∈ it :: l, t = a.evdts) ↔ (∃ a ∈ l, t = a.evdts) := by
          constructor
          · rintro ⟨a, ha, hta⟩
            rcases List.mem_cons.mp ha with rfl | ha2
            · exact absurd hta h1
            · exact ⟨a, ha2, hta⟩
          · rintro ⟨a, ha, hta⟩
            exact ⟨a, List.mem_cons_of_mem _ ha, hta⟩
        have hfil : (it :: l).filter (fun a => a.evdts < t) = l.filter (fun a => a.evdts < t) := by
          simp [List.filter_cons, h2]
        rw [hfil]
        by_cases h3 : ∃ a ∈ l, t = a.evdts
        · rw [if_pos h3, if_pos (hmem.mpr h3)]
        · rw [if_neg h3, if_neg (fun hc => h3 (hmem.mp hc))]

/-- C8: `remove_offsets` keeps `name, coords, dtarray, Sn, Se, Su, EQtimes`
unchanged; each east/north/up value becomes NaN when its date equals some
offset's event date and otherwise equals the original value minus the sum of
the offsets of all events dated strictly before that date; the empty offset
list returns the input object unchanged. -/
theorem C8_remove_offsets_spec {n : ℕ} (Data0 : Timeseries n) (offsets_obj : List Offsets) :
    (remove_offsets Data0 offsets_obj).name = Data0.name ∧
    (remove_offsets Data0 offsets_obj).coords = Data0.coords ∧
    (remove_offsets Data0 offsets_obj).dtarray = Data0.dtarray ∧
    (remove_offsets Data0 offsets_obj).Sn = Data0.Sn ∧
    (remove_offsets Data0 offsets_obj).Se = Data0.Se ∧
    (remove_offsets Data0 offsets_obj).Su = Data0.Su ∧
    (remove_offsets Data0 offsets_obj).EQtimes = Data0.EQtimes ∧
    (∀ i, (remove_offsets Data0 offsets_obj).dE i =
      if ∃ item ∈ offsets_obj, Data0.dtarray i = item.evdts then none
      else (Data0.dE i).map (fun v => v -
        ((offsets_obj.filter (fun item => item.evdts < Data0.dtarray i)).map Offsets.e_offsets).sum)) ∧
    (∀ i, (remove_offsets Data0 offsets_obj).dN i =
      if ∃ item ∈ offsets_obj, Data0.dtarray i = item.evdts then none
      else (Data0.dN i).map (fun v => v -
        ((offsets_obj.filter (fun item => item.evdts < Data0.dtarray i)).map Offsets.n_offsets).sum)) ∧
    (∀ i, (remove_offsets Data0 offsets_obj).dU i =
      if ∃ item ∈ offsets_obj, Data0.dtarray i = item.evdts then none
      else (Data0.dU i).map (fun v => v -
        ((offsets_obj.filter (fun item => item.evdts < Data0.dtarray i)).map Offsets.u_offsets).sum)) ∧
    remove_offsets Data0 [] = Data0 := by
  cases offsets_obj with
  | nil =>
    refine ⟨rfl, rfl, rfl, rfl, rfl, rfl, rfl, ?_, ?_, ?_, rfl⟩ <;>
      · intro i
        simp only [remove_offsets, List.not_mem_nil, false_and, exists_false,
          exists_const, if_false, List.filter_nil, List.map_nil, List.sum_nil]
        cases h : Data0.dE i <;> cases h2 : Data0.dN i <;> cases h3 : Data0.dU i <;>
          simp [h, h2, h3]
  | cons a l =>
    refine ⟨rfl, rfl, rfl, rfl, rfl, rfl, rfl, ?_, ?_, ?_, rfl⟩ <;>
      · intro i
        exact removeComponent_eq (Data0.dtarray i) _ (a :: l) _

/-- C10: `fit_single_offset` returns 0 when fewer than two samples lie within
`offset_num_days` days before the interval start or fewer than two lie within
`offset_num_days` days after the interval end, and otherwise returns the
nan-mean of the after-window samples minus the nan-mean of the before-window
samples. -/
theorem C10_fit_single_offset_spec {n : ℕ} (dtarray : Fin n → ℤ) (data : Fin n → Option ℚ)
    (interval : ℤ × ℤ) (offset_num_days : ℤ) :
    fit_single_offset dtarray data interval offset_num_days =
      (if ((List.finRange n).filter
            (fun i => interval.1 - offset_num_days ≤ dtarray i ∧ dtarray i ≤ interval.1)).length < 2 ∨
          ((List.finRange n).filter
            (fun i => interval.2 ≤ dtarray i ∧ dtarray i ≤ interval.2 + offset_num_days)).length < 2
       then some 0
       else Option.map₂ (· - ·)
         (nanmean (((List.finRange n).filter
           (fun i => interval.2 ≤ dtarray i ∧ dtarray i ≤ interval.2 + offset_num_days)).map
             (fun i => data i)))
         (nanmean (((List.finRange n).filter
           (fun i => interval.1 - offset_num_days ≤ dtarray i ∧ dtarray i ≤ interval.1)).map
             (fun i => data i)))) := by
  have hb : (List.finRange n).filter
        (fun i => decide (-offset_num_days ≤ dtarray i - interval.1 ∧ dtarray i - interval.1 ≤ 0))
      = (List.finRange n).filter
        (fun i => decide (interval.1 - offset_num_days ≤ dtarray i ∧ dtarray i ≤ interval.1)) := by
    apply List.filter_congr
    intro i _
    simp only [decide_eq_decide]
    omega
  have ha : (List.finRange n).filter
        (fun i => decide (0 ≤ dtarray i - interval.2 ∧ dtarray i - interval.2 ≤ offset_num_days))
      = (List.finRange n).filter
        (fun i => decide (interval.2 ≤ dtarray i ∧ dtarray i ≤ interval.2 + offset_num_days)) := by
    apply List.filter_congr
    intro i _
    simp only [decide_eq_decide]
    omega
  unfold fit_single_offset
  rw [hb, ha]
  have hguard : ∀ (bw aw : List (Fin n)),
      (bw = [] ∨ aw = [] ∨ bw.length = 1 ∨ aw.length = 1) ↔ (bw.length < 2 ∨ aw.length < 2) := by
    intro bw aw
    rw [← List.length_eq_zero, ← List.length_eq_zero]
    omega
  by_cases h : ((List.finRange n).filter
        (fun i => decide (interval.1 - offset_num_days ≤ dtarray i ∧ dtarray i ≤ interval.1))).length < 2 ∨
      ((List.finRange n).filter
        (fun i => decide (interval.2 ≤ dtarray i ∧ dtarray i ≤ interval.2 + offset_num_days))).length < 2
  · rw [if_pos ((hguard _ _).mpr h), if_pos h]
  · rw [if_neg (fun hc => h ((hguard _ _).mp hc)), if_neg h]

end GPSTools

namespace GPSTools

/-- C9: every epoch of the paired series is a GPS epoch lying strictly between
the earliest and latest GRACE epoch (boundary GRACE epochs excluded), the GPS
displacement and uncertainty values are copied unchanged, the original GPS
time order is preserved (sublist of the GPS epochs), and the paired series is
never longer than the GPS series. -/
theorem C9_pair_GPSGRACE_spec {n m : ℕ} (GPS : Timeseries n) (GRACE : GraceTS m)
    (gft : ℤ → ℚ) (mn mx : ℤ) (P : PairedTS)
    (hmn : ((List.finRange m).map (fun j => GRACE.dtarray j)).min? = some mn)
    (hmx : ((List.finRange m).map (fun j => GRACE.dtarray j)).max? = some mx)
    (hP : pair_GPSGRACE GPS GRACE gft = some P) :
    P.dtarray.Sublist ((List.finRange n).map (fun i => GPS.dtarray i)) ∧
    (∀ t ∈ P.dtarray, (∃ i : Fin n, GPS.dtarray i = t) ∧ mn < t ∧ t < mx) ∧
    P.dtarray.length ≤ n ∧
    P.north.length = P.dtarray.length ∧ P.east.length = P.dtarray.length ∧
    P.vert.length = P.dtarray.length ∧ P.N_err.length = P.dtarray.length ∧
    P.E_err.length = P.dtarray.length ∧ P.V_err.length = P.dtarray.length ∧
    ∀ k, k < P.dtarray.length → ∃ i : Fin n,
      P.dtarray.getD k 0 = GPS.dtarray i ∧
      P.north.getD k none = GPS.dN i ∧
      P.east.getD k none = GPS.dE i ∧
      P.vert.getD k none = GPS.dU i ∧
      P.N_err.getD k none = GPS.Sn i ∧
      P.E_err.getD k none = GPS.Se i ∧
      P.V_err.getD k none = GPS.Su i := by
  simp only [pair_GPSGRACE, hmn, hmx, Option.some.injEq] at hP
  subst hP
  set idxs := (List.finRange n).filter
    (fun i => decide (mn < GPS.dtarray i ∧ GPS.dtarray i < mx)) with hidxs
  constructor
  · exact (List.filter_sublist _).map (fun i => GPS.dtarray i)
  refine ⟨?_, ?_, ?_, ?_, ?_, ?_, ?_, ?_, ?_⟩
  · intro t ht
    simp only [List.mem_map] at ht
    obtain ⟨i, hi, rfl⟩ := ht
    rw [hidxs, List.mem_filter] at hi
    have hcond := of_decide_eq_true hi.2
    exact ⟨⟨i, rfl⟩, hcond.1, hcond.2⟩
  · calc (idxs.map (fun i => GPS.dtarray i)).length = idxs.length := List.length_map _ _
    _ ≤ (List.finRange n).length := (List.filter_sublist _).length_le
    _ = n := List.length_finRange n
  · simp
  · simp
  · simp
  · simp
  · simp
  · simp
  · intro k hk
    simp only [List.length_map] at hk
    refine ⟨idxs.get ⟨k, hk⟩, ?_, ?_, ?_, ?_, ?_, ?_, ?_⟩ <;>
      · rw [List.getD_eq_getElem _ _ (by simpa using hk)]
        simp

end GPSTools

namespace GPSTools

/-- Concrete one-epoch GPS series used to exercise `pair_GPSGRACE`. -/
def gpsW : Timeseries 1 :=
  { name := "P157"
    coords := (0, 0)
    dtarray := fun _ => 5
    dN := fun _ => some 1
    dE := fun _ => some 2
    dU := fun _ => some 3
    Sn := fun _ => some (1/4)
    Se := fun _ => some (1/5)
    Su := fun _ => some (1/6)
    EQtimes := [] }

/-- Concrete two-epoch GRACE series used to exercise `pair_GPSGRACE`. -/
def graceW : GraceTS 2 :=
  { dtarray := ![0, 10]
    dN := ![2, 2]
    dE := ![3, 3]
    dU := ![4, 4] }

/-- The paired series produced from `gpsW` and `graceW`. -/
def pairedW : PairedTS :=
  { dtarray := [5]
    north := [some 1]
    east := [some 2]
    vert := [some 3]
    N_err := [some (1/4)]
    E_err := [some (1/5)]
    V_err := [some (1/6)]
    u := [3]
    v := [2]
    w := [4] }

theorem pair_GPSGRACE_at_witness :
    pair_GPSGRACE gpsW graceW (fun t => (t : ℚ)) = some pairedW := by
  simp only [pair_GPSGRACE, gpsW, graceW, pairedW]
  norm_num [List.finRange, List.filter, interp1, List.range, List.range.loop]

theorem C9_pair_GPSGRACE_spec_witness :
    pair_GPSGRACE gpsW graceW (fun t => (t : ℚ)) = some pairedW ∧
    pairedW.dtarray.length ≤ 1 :=
  ⟨pair_GPSGRACE_at_witness,
    (C9_pair_GPSGRACE_spec gpsW graceW (fun t => (t : ℚ)) 0 10 pairedW rfl rfl
      pair_GPSGRACE_at_witness).2.2.1⟩

end GPSTools

namespace Hammond

noncomputable section

open scoped Classical

open Matrix

/-- Mean equatorial Earth radius, `r0 = 6.378e6` (hammond_strain.py line 62). -/
def r0 : ℝ := 6378000

/-- Parallel input arrays of `strain_sphere`: longitude and colatitude in
degrees, velocities and their uncertainties (hammond_strain.py line 58). -/
structure Obs (n : ℕ) where
  phi : Fin n → ℝ
  theta : Fin n → ℝ
  u_phi : Fin n → ℝ
  u_theta : Fin n → ℝ
  s_phi : Fin n → ℝ
  s_theta : Fin n → ℝ

variable {n : ℕ}

/-- Colatitude converted to radians (line 60). -/
def thetaR (o : Obs n) (i : Fin n) : ℝ := o.theta i * (Real.pi / 180)

/-- Longitude converted to radians (line 61). -/
def phiR (o : Obs n) (i : Fin n) : ℝ := o.phi i * (Real.pi / 180)

/-- `theta_0 = np.mean(theta)` (line 64). -/
def theta0 (o : Obs n) : ℝ := (∑ i, thetaR o i) / n

/-- `phi_0 = np.mean(phi)` (line 65). -/
def phi0 (o : Obs n) : ℝ := (∑ i, phiR o i) / n

/-- Residual at point `i` of the least-squares line fit `y ≈ a + b * phi`
(in radians), i.e. `np.dot(Gc, mc) - y` with `mc = np.linalg.lstsq(Gc, y)[0]`
(lines 76-78). When the longitudes are not all equal this is the unique
normal-equation solution; when they are all equal `lstsq` returns the
minimum-norm solution, whose fitted value is the mean of `y`. -/
def lineResid (o : Obs n) (y : Fin n → ℝ) (i : Fin n) : ℝ :=
  let Sx := ∑ j, phiR o j
  let Sxx := ∑ j, (phiR o j) ^ 2
  let Sy := ∑ j, y j
  let Sxy := ∑ j, phiR o j * y j
  let dd := n * Sxx - Sx ^ 2
  if dd = 0 then Sy / n - y i
  else ((Sy * Sxx - Sx * Sxy) / dd + ((n * Sxy - Sx * Sy) / dd) * phiR o i) - y i

/-- The data of the collinearity line fit: `dc = [90-i for i in theta]` with
`theta` already in radians (line 75). -/
def dcVec (o : Obs n) (i : Fin n) : ℝ := 90 - thetaR o i

/-- `colin = 1`: all residuals of the line fit below `1e-5` in absolute value
(`max(abs(resc)) < 1e-5`, line 79; stated pointwise, which agrees with the
source for nonempty input). -/
def colin1 (o : Obs n) : Prop := ∀ i, |lineResid o (dcVec o) i| < 1 / 100000

/-- `colin = 2`: all longitudes, or all colatitudes, within `1e-5` radians of
their mean (line 81). -/
def colin2 (o : Obs n) : Prop :=
  (∀ i, |phiR o i - phi0 o| < 1 / 100000) ∨ (∀ i, |thetaR o i - theta0 o| < 1 / 100000)

/-- The collinearity warning is printed exactly when `colin` ends up 1 or 2
(lines 83-84). -/
def collinWarning (o : Obs n) : Prop := colin1 o ∨ colin2 o

/-- Station index of a row of `G`: row `2*i` and row `2*i+1` belong to
station `i`. -/
def site (k : Fin (2 * n)) : Fin n := ⟨k.val / 2, by omega⟩

/-- `del_phi = phi[i]-phi_0` (line 96). -/
def delPhi (o : Obs n) (i : Fin n) : ℝ := phiR o i - phi0 o

/-- `del_theta = theta[i]-theta_0` (line 97). -/
def delTheta (o : Obs n) (i : Fin n) : ℝ := thetaR o i - theta0 o

/-- The 6-column design matrix built when solving for both rotation and
strain (lines 94-113, `paramsel` neither 1 nor 2). -/
def Gboth (o : Obs n) : Matrix (Fin (2 * n)) (Fin 6) ℝ := fun k c =>
  if k.val % 2 = 0 then
    if c.val = 0 then -r0
    else if c.val = 1 then -r0 * Real.cos (theta0 o) * delPhi o (site k)
    else if c.val = 2 then r0 * delTheta o (site k)
    else if c.val = 3 then r0 * Real.sin (theta0 o) * delPhi o (site k)
    else if c.val = 4 then r0 * delTheta o (site k)
    else 0
  else
    if c.val = 0 then -r0 * Real.cos (theta0 o) * delPhi o (site k)
    else if c.val = 1 then r0
    else if c.val = 2 then -r0 * Real.sin (theta0 o) * delPhi o (site k)
    else if c.val = 3 then 0
    else if c.val = 4 then r0 * Real.sin (theta0 o) * delPhi o (site k)
    else r0 * delTheta o (site k)

/-- The 3-column design matrix for rotation only (`paramsel = 1`): the same
rows with the strain columns omitted (lines 94-109). -/
def Grot (o : Obs n) : Matrix (Fin (2 * n)) (Fin 3) ℝ := fun k c =>
  if k.val % 2 = 0 then
    if c.val = 0 then -r0
    else if c.val = 1 then -r0 * Real.cos (theta0 o) * delPhi o (site k)
    else r0 * delTheta o (site k)
  else
    if c.val = 0 then -r0 * Real.cos (theta0 o) * delPhi o (site k)
    else if c.val = 1 then r0
    else -r0 * Real.sin (theta0 o) * delPhi o (site k)

/-- The 3-column design matrix for strain only (`paramsel = 2`,
lines 114-125). -/
def Gstrain (o : Obs n) : Matrix (Fin (2 * n)) (Fin 3) ℝ := fun k c =>
  if k.val % 2 = 0 then
    if c.val = 0 then r0 * Real.sin (theta0 o) * delPhi o (site k)
    else if c.val = 1 then r0 * delTheta o (site k)
    else 0
  else
    if c.val = 0 then 0
    else if c.val = 1 then r0 * Real.sin (theta0 o) * delPhi o (site k)
    else r0 * delTheta o (site k)

/-- Number of columns of `G` as a function of the mode selector (lines 90-93). -/
def Gcols (paramsel : ℤ) : ℕ := if paramsel ≠ 2 ∧ paramsel ≠ 1 then 6 else 3

/-- The data vector `d = np.hstack((u_phi.T, u_theta.T))` (line 88): the
first `n` entries are `u_phi`, the last `n` are `u_theta`. (Note that this
block stacking does not match the per-station interleaving of the rows of
`G`.) -/
def dvec (o : Obs n) : Fin (2 * n) → ℝ := fun k =>
  if h : k.val < n then o.u_phi ⟨k.val, h⟩ else o.u_theta ⟨k.val - n, by omega⟩

/-- Diagonal of `covd = np.diag(np.hstack((np.square(s_phi),
np.square(s_theta))))` (line 130). -/
def covdDiag (o : Obs n) : Fin (2 * n) → ℝ := fun k =>
  if h : k.val < n then (o.s_phi ⟨k.val, h⟩) ^ 2 else (o.s_theta ⟨k.val - n, by omega⟩) ^ 2

/-- `W = np.diag(1./np.diag(covd))` (line 133). -/
def Wdiag (cv : Fin (2 * n) → ℝ) : Matrix (Fin (2 * n)) (Fin (2 * n)) ℝ :=
  Matrix.diagonal (fun k => (cv k)⁻¹)

/-- The matrix that `np.linalg.inv` is applied to: `GᵗWG` when `weight == 1`,
else `GᵗG` (lines 132-136). -/
def normalMat {p : ℕ} (G : Matrix (Fin (2 * n)) (Fin p) ℝ) (cv : Fin (2 * n) → ℝ)
    (weight : ℤ) : Matrix (Fin p) (Fin p) ℝ :=
  if weight = 1 then Gᵀ * Wdiag cv * G else Gᵀ * G

/-- `M = inv(GᵗWG)·GᵗW` when `weight == 1`, else `M = inv(GᵗG)·Gᵗ`
(lines 132-136). -/
def Mmat {p : ℕ} (G : Matrix (Fin (2 * n)) (Fin p) ℝ) (cv : Fin (2 * n) → ℝ)
    (weight : ℤ) : Matrix (Fin p) (Fin (2 * n)) ℝ :=
  if weight = 1 then (normalMat G cv weight)⁻¹ * (Gᵀ * Wdiag cv)
  else (normalMat G cv weight)⁻¹ * Gᵀ

/-- `m = np.dot(M, d)` (line 137). -/
def mSol (o : Obs n) {p : ℕ} (G : Matrix (Fin (2 * n)) (Fin p) ℝ) (weight : ℤ) :
    Fin p → ℝ :=
  (Mmat G (covdDiag o) weight).mulVec (dvec o)

/-- `dpred = np.dot(G, m)` (line 138). -/
def dpredVec (o : Obs n) {p : ℕ} (G : Matrix (Fin (2 * n)) (Fin p) ℝ) (weight : ℤ) :
    Fin (2 * n) → ℝ :=
  G.mulVec (mSol o G weight)

/-- `covm = np.dot(np.dot(M, covd), M.T)` (line 170). -/
def covmMat (o : Obs n) {p : ℕ} (G : Matrix (Fin (2 * n)) (Fin p) ℝ) (weight : ℤ) :
    Matrix (Fin p) (Fin p) ℝ :=
  Mmat G (covdDiag o) weight * Matrix.diagonal (covdDiag o) *
    (Mmat G (covdDiag o) weight)ᵀ

/-- `chi2` (lines 201-206): `first_term = lstsq(covd.T, (d-G·m).T)` is, for
the diagonal `covd`, the minimum-norm solution `residual/covd` entrywise
(zero where `covd` is zero); then `chi2 = dot(first_term, d-G·m)/N` with
`N = len(d) = 2n` in both branches of the `paramsel` test. -/
def chi2Of (o : Obs n) {p : ℕ} (G : Matrix (Fin (2 * n)) (Fin p) ℝ) (weight : ℤ) : ℝ :=
  (∑ k, (if covdDiag o k = 0 then 0 else (dvec o k - dpredVec o G weight k) / covdDiag o k) *
    (dvec o k - dpredVec o G weight k)) / (2 * n)

/-- `np.arctan2(y, x)`. -/
def atan2 (y x : ℝ) : ℝ :=
  if 0 < x then Real.arctan (y / x)
  else if x < 0 then
    (if 0 ≤ y then Real.arctan (y / x) + Real.pi else Real.arctan (y / x) - Real.pi)
  else if 0 < y then Real.pi / 2
  else if y < 0 then -(Real.pi / 2)
  else 0

/-- The Euler-vector block of outputs (lines 210-241). -/
structure EulerOut where
  OMEGA : ℝ
  THETA_p : ℝ
  PHI_p : ℝ
  s_OMEGA : ℝ
  s_THETA_p : ℝ
  s_PHI_p : ℝ
  r_PHITHETA : ℝ

/-- Euler vector and its propagated uncertainty from the rotation components
`(ω_θ, ω_φ, ω_r)`, the centroid `(θ0, φ0)` and the rotation sub-block `covp`
of the parameter covariance (lines 210-241). -/
def eulerCalc (omega_theta omega_phi omega_r th0 ph0 : ℝ)
    (covp : Matrix (Fin 3) (Fin 3) ℝ) : EulerOut :=
  let OMEGA := Real.sqrt (omega_r ^ 2 + omega_phi ^ 2 + omega_theta ^ 2)
  let y := omega_r * Real.cos th0 - omega_theta * Real.sin th0
  let A := omega_r * Real.sin th0 * Real.sin ph0 +
    omega_theta * Real.cos th0 * Real.sin ph0 + omega_phi * Real.cos ph0
  let B := omega_r * Real.sin th0 * Real.cos ph0 +
    omega_theta * Real.cos th0 * Real.cos ph0 - omega_phi * Real.sin ph0
  let z := 1 / Real.sqrt (1 - (y / OMEGA) ^ 2)
  let J : Matrix (Fin 3) (Fin 3) ℝ :=
    Matrix.of
      ![![omega_r / OMEGA, omega_phi / OMEGA, omega_theta / OMEGA],
        ![(Real.sin th0 / (A * A + B * B)) * (B * Real.sin ph0 - A * Real.cos ph0),
          (1 / (A * A + B * B)) * (B * Real.cos ph0 + A * Real.sin ph0),
          (Real.cos th0 / (A * A + B * B)) * (B * Real.sin ph0 - A * Real.cos ph0)],
        ![-(z / OMEGA) * (Real.cos th0 - y * omega_r / (OMEGA * OMEGA)),
          z * y * omega_phi / (OMEGA * OMEGA * OMEGA),
          (z / OMEGA) * (Real.sin th0 + y * omega_theta / (OMEGA * OMEGA))]]
  let covE := J * covp * Jᵀ
  { OMEGA := OMEGA
    THETA_p := Real.arccos (y / OMEGA)
    PHI_p := atan2 A B
    s_OMEGA := Real.sqrt (covE 0 0)
    s_PHI_p := Real.sqrt (covE 1 1)
    s_THETA_p := Real.sqrt (covE 2 2)
    r_PHITHETA := covE 1 2 / Real.sqrt (covE 1 1 * covE 2 2) }

/-- The 22-element return list of `strain_sphere` (line 253), with `Option ℝ`
fields where the source can report `np.nan` (`none` models NaN). -/
structure SphereResult (n : ℕ) where
  e_phiphi : Option ℝ
  e_thetaphi : Option ℝ
  e_thetatheta : Option ℝ
  omega_r : Option ℝ
  U_theta : Option ℝ
  U_phi : Option ℝ
  s_omega_r : Option ℝ
  s_e_phiphi : Option ℝ
  s_e_thetaphi : Option ℝ
  s_e_thetatheta : Option ℝ
  s_U_theta : Option ℝ
  s_U_phi : Option ℝ
  chi2 : ℝ
  OMEGA : Option ℝ
  THETA_p : Option ℝ
  PHI_p : Option ℝ
  s_OMEGA : Option ℝ
  s_THETA_p : Option ℝ
  s_PHI_p : Option ℝ
  r_PHITHETA : Option ℝ
  u_phi_p : Fin n → ℝ
  u_theta_p : Fin n → ℝ

end

end Hammond

namespace Hammond

noncomputable section

open scoped Classical

open Matrix

variable {n : ℕ}

/-- Result assembly for `paramsel = 1` (rotation only): unpacking of `m`
(lines 151-157), translation rates (167-168), uncertainties (182-190), chi2
(201-204), Euler vector (210-241) and the predicted velocities
`dpred[::2]`, `dpred[1::2]` (141-142). -/
def rotResult (o : Obs n) (weight : ℤ) : SphereResult n :=
  let G := Grot o
  let m := mSol o G weight
  let covm := covmMat o G weight
  let dpred := dpredVec o G weight
  let e := eulerCalc (m 0) (m 1) (m 2) (theta0 o) (phi0 o)
    (Matrix.of
      ![![covm 2 2, covm 2 1, covm 2 0],
        ![covm 2 1, covm 1 1, covm 0 1],
        ![covm 2 0, covm 0 1, covm 0 0]])
  { e_phiphi := none
    e_thetaphi := none
    e_thetatheta := none
    omega_r := some (m 2)
    U_theta := some (r0 * m 1)
    U_phi := some (-r0 * m 0)
    s_omega_r := some (Real.sqrt (covm 2 2))
    s_e_phiphi := some 0
    s_e_thetaphi := some 0
    s_e_thetatheta := some 0
    s_U_theta := some (r0 * Real.sqrt (covm 1 1))
    s_U_phi := some (r0 * Real.sqrt (covm 0 0))
    chi2 := chi2Of o G weight
    OMEGA := some e.OMEGA
    THETA_p := some e.THETA_p
    PHI_p := some e.PHI_p
    s_OMEGA := some e.s_OMEGA
    s_THETA_p := some e.s_THETA_p
    s_PHI_p := some e.s_PHI_p
    r_PHITHETA := some e.r_PHITHETA
    u_phi_p := fun i => dpred ⟨2 * i.val, by omega⟩
    u_theta_p := fun i => dpred ⟨2 * i.val + 1, by omega⟩ }

/-- Result assembly for `paramsel = 2` (strain only): `omega_*` are `np.nan`
(lines 144-147), so `U_theta = r0*omega_phi` and `U_phi = -r0*omega_theta`
are NaN as well; `s_U_phi = s_U_theta = 0` and `s_omega_r = np.nan`
(lines 173-181); the whole Euler block is NaN (lines 243-250). -/
def strainResult (o : Obs n) (weight : ℤ) : SphereResult n :=
  let G := Gstrain o
  let m := mSol o G weight
  let covm := covmMat o G weight
  let dpred := dpredVec o G weight
  let omega_theta : Option ℝ := none
  let omega_phi : Option ℝ := none
  { e_phiphi := some (m 0)
    e_thetaphi := some (m 1)
    e_thetatheta := some (m 2)
    omega_r := none
    U_theta := omega_phi.map (fun w => r0 * w)
    U_phi := omega_theta.map (fun w => -r0 * w)
    s_omega_r := none
    s_e_phiphi := some (Real.sqrt (covm 0 0))
    s_e_thetaphi := some (Real.sqrt (covm 1 1))
    s_e_thetatheta := some (Real.sqrt (covm 2 2))
    s_U_theta := some 0
    s_U_phi := some 0
    chi2 := chi2Of o G weight
    OMEGA := none
    THETA_p := none
    PHI_p := none
    s_OMEGA := none
    s_THETA_p := none
    s_PHI_p := none
    r_PHITHETA := none
    u_phi_p := fun i => dpred ⟨2 * i.val, by omega⟩
    u_theta_p := fun i => dpred ⟨2 * i.val + 1, by omega⟩ }

/-- Result assembly for any `paramsel` other than 1 and 2 (solve for both):
unpacking of all six components of `m` (lines 158-164), uncertainties
(191-199), chi2 (205-206) and Euler vector (210-241). -/
def bothResult (o : Obs n) (weight : ℤ) : SphereResult n :=
  let G := Gboth o
  let m := mSol o G weight
  let covm := covmMat o G weight
  let dpred := dpredVec o G weight
  let e := eulerCalc (m 0) (m 1) (m 2) (theta0 o) (phi0 o)
    (Matrix.of
      ![![covm 2 2, covm 2 1, covm 2 0],
        ![covm 2 1, covm 1 1, covm 0 1],
        ![covm 2 0, covm 0 1, covm 0 0]])
  { e_phiphi := some (m 3)
    e_thetaphi := some (m 4)
    e_thetatheta := some (m 5)
    omega_r := some (m 2)
    U_theta := some (r0 * m 1)
    U_phi := some (-r0 * m 0)
    s_omega_r := some (Real.sqrt (covm 2 2))
    s_e_phiphi := some (Real.sqrt (covm 3 3))
    s_e_thetaphi := some (Real.sqrt (covm 4 4))
    s_e_thetatheta := some (Real.sqrt (covm 5 5))
    s_U_theta := some (r0 * Real.sqrt (covm 1 1))
    s_U_phi := some (r0 * Real.sqrt (covm 0 0))
    chi2 := chi2Of o G weight
    OMEGA := some e.OMEGA
    THETA_p := some e.THETA_p
    PHI_p := some e.PHI_p
    s_OMEGA := some e.s_OMEGA
    s_THETA_p := some e.s_THETA_p
    s_PHI_p := some e.s_PHI_p
    r_PHITHETA := some e.r_PHITHETA
    u_phi_p := fun i => dpred ⟨2 * i.val, by omega⟩
    u_theta_p := fun i => dpred ⟨2 * i.val + 1, by omega⟩ }

/-- `strain_sphere` (hammond_strain.py lines 58-253). The three `paramsel`
regimes of the source (`== 2`, `== 1`, anything else) are consolidated into a
top-level case split; `np.linalg.inv` raises `LinAlgError` on an exactly
singular matrix, modelled by returning `none` when the normal matrix is not
invertible. -/
def strain_sphere (o : Obs n) (weight paramsel : ℤ) : Option (SphereResult n) :=
  if paramsel = 2 then
    if IsUnit (normalMat (Gstrain o) (covdDiag o) weight).det
    then some (strainResult o weight) else none
  else if paramsel = 1 then
    if IsUnit (normalMat (Grot o) (covdDiag o) weight).det
    then some (rotResult o weight) else none
  else
    if IsUnit (normalMat (Gboth o) (covdDiag o) weight).det
    then some (bothResult o weight) else none

/-- One vertex of a Delaunay triangle as used by `compute`
(hammond_strain.py lines 289-310): position from `triangle_vertices`, east
and north velocity and uncertainties from the matched station of the velocity
field. -/
structure TriVertex where
  elon : ℝ
  nlat : ℝ
  evel : ℝ
  nvel : ℝ
  se : ℝ
  sn : ℝ

/-- The argument assembly of `compute` for one triangle
(hammond_strain.py lines 303-315): `phi` from the vertex longitudes, `theta`
from `[i-90 for i in theta]` applied to the vertex latitudes, `u_phi` the
east velocities, `u_theta` the negated north velocities, uncertainties copied,
and `weight=1`, `paramsel=0`. -/
def computeArgs (v : Fin 3 → TriVertex) : Obs 3 × ℤ × ℤ :=
  ({ phi := fun i => (v i).elon
     theta := fun i => (v i).nlat - 90
     u_phi := fun i => (v i).evel
     u_theta := fun i => -(v i).nvel
     s_phi := fun i => (v i).se
     s_theta := fun i => (v i).sn }, 1, 0)

/-- The per-triangle invocation of `strain_sphere` by `compute`
(hammond_strain.py line 316). -/
def computeTriangleCall (v : Fin 3 → TriVertex) : Option (SphereResult 3) :=
  strain_sphere (computeArgs v).1 (computeArgs v).2.1 (computeArgs v).2.2

end

end Hammond

namespace Hammond

noncomputable section

open scoped Classical

open Matrix

variable {n : ℕ}

theorem covdDiag_const (o : Obs n) (sg : ℝ) (hsp : ∀ i, o.s_phi i = sg)
    (hst : ∀ i, o.s_theta i = sg) : covdDiag o = fun _ => sg ^ 2 := by
  funext k
  unfold covdDiag
  split
  · rw [hsp]
  · rw [hst]

theorem Wdiag_const (sg : ℝ) :
    Wdiag (n := n) (fun _ => sg ^ 2) = ((sg ^ 2)⁻¹ : ℝ) • (1 : Matrix (Fin (2 * n)) (Fin (2 * n)) ℝ) := by
  ext i j
  by_cases h : i = j <;>
    simp [Wdiag, Matrix.diagonal_apply, h, Matrix.one_apply, Matrix.smul_apply]

theorem normalMat_const_smul {p : ℕ} (G : Matrix (Fin (2 * n)) (Fin p) ℝ) (sg : ℝ) :
    normalMat G (fun _ => sg ^ 2) 1 = ((sg ^ 2)⁻¹ : ℝ) • (Gᵀ * G) := by
  unfold normalMat
  rw [if_pos rfl, Wdiag_const, Matrix.mul_smul, Matrix.mul_one, Matrix.smul_mul]

theorem Mmat_weight_eq {p : ℕ} (G : Matrix (Fin (2 * n)) (Fin p) ℝ) (sg : ℝ)
    (hσ : sg ≠ 0) (w2 : ℤ) (hw : w2 ≠ 1) :
    Mmat G (fun _ => sg ^ 2) 1 = Mmat G (fun _ => sg ^ 2) w2 := by
  have hc : ((sg ^ 2 : ℝ)) ≠ 0 := pow_ne_zero 2 hσ
  have hw2 : normalMat G (fun _ => sg ^ 2) w2 = Gᵀ * G := by
    unfold normalMat
    rw [if_neg hw]
  unfold Mmat
  rw [if_pos rfl, if_neg hw, hw2, normalMat_const_smul, Wdiag_const,
    Matrix.mul_smul, Matrix.mul_one]
  by_cases hB : IsUnit (Gᵀ * G).det
  · have h2 : (((sg ^ 2)⁻¹ : ℝ) • (Gᵀ * G))⁻¹ = ((sg ^ 2 : ℝ)) • (Gᵀ * G)⁻¹ := by
      apply Matrix.inv_eq_right_inv
      rw [Matrix.smul_mul, Matrix.mul_smul, smul_smul, Matrix.mul_nonsing_inv _ hB,
        inv_mul_cancel₀ hc, one_smul]
    rw [h2, Matrix.smul_mul, Matrix.mul_smul, smul_smul, mul_inv_cancel₀ hc, one_smul]
  · have hdet2 : ¬ IsUnit (((sg ^ 2)⁻¹ : ℝ) • (Gᵀ * G)).det := by
      rw [Matrix.det_smul]
      intro hu
      exact hB (isUnit_iff_ne_zero.mpr (by
        intro h0
        rw [h0, mul_zero] at hu
        exact (isUnit_iff_ne_zero.mp hu) rfl))
    rw [Matrix.nonsing_inv_apply_not_isUnit _ hdet2,
      Matrix.nonsing_inv_apply_not_isUnit _ hB, Matrix.zero_mul, Matrix.zero_mul]

theorem normal_isUnit_iff {p : ℕ} (G : Matrix (Fin (2 * n)) (Fin p) ℝ) (sg : ℝ)
    (hσ : sg ≠ 0) (w2 : ℤ) (hw : w2 ≠ 1) :
    IsUnit (normalMat G (fun _ => sg ^ 2) 1).det ↔
      IsUnit (normalMat G (fun _ => sg ^ 2) w2).det := by
  have hc : ((sg ^ 2 : ℝ))⁻¹ ≠ 0 := inv_ne_zero (pow_ne_zero 2 hσ)
  have hw2 : normalMat G (fun _ => sg ^ 2) w2 = Gᵀ * G := by
    unfold normalMat
    rw [if_neg hw]
  rw [normalMat_const_smul, hw2, Matrix.det_smul, isUnit_iff_ne_zero, isUnit_iff_ne_zero,
    mul_ne_zero_iff]
  constructor
  · exact fun h => h.2
  · exact fun h => ⟨pow_ne_zero _ hc, h⟩

theorem rotResult_weight_congr (o : Obs n) (w1 w2 : ℤ)
    (hM : Mmat (Grot o) (covdDiag o) w1 = Mmat (Grot o) (covdDiag o) w2) :
    rotResult o w1 = rotResult o w2 := by
  simp only [rotResult, mSol, covmMat, dpredVec, chi2Of, hM]

theorem strainResult_weight_congr (o : Obs n) (w1 w2 : ℤ)
    (hM : Mmat (Gstrain o) (covdDiag o) w1 = Mmat (Gstrain o) (covdDiag o) w2) :
    strainResult o w1 = strainResult o w2 := by
  simp only [strainResult, mSol, covmMat, dpredVec, chi2Of, hM]

theorem bothResult_weight_congr (o : Obs n) (w1 w2 : ℤ)
    (hM : Mmat (Gboth o) (covdDiag o) w1 = Mmat (Gboth o) (covdDiag o) w2) :
    bothResult o w1 = bothResult o w2 := by
  simp only [bothResult, mSol, covmMat, dpredVec, chi2Of, hM]

/-- C2: when every velocity uncertainty equals one common positive value, the
weighted solve (`weight = 1`) returns exactly the same result (all model
parameters, predicted velocities, uncertainties and chi2) as the unweighted
solve (`weight ≠ 1`), in every mode. -/
theorem C2_weighted_eq_unweighted_equal_sigma (o : Obs n) (paramsel w2 : ℤ) (sg : ℝ)
    (hn : 3 ≤ n) (hσ : 0 < sg) (hsp : ∀ i, o.s_phi i = sg) (hst : ∀ i, o.s_theta i = sg)
    (hw : w2 ≠ 1) :
    strain_sphere o 1 paramsel = strain_sphere o w2 paramsel := by
  have hσ0 : sg ≠ 0 := ne_of_gt hσ
  have hcv : covdDiag o = fun _ => sg ^ 2 := covdDiag_const o sg hsp hst
  have hMrot : Mmat (Grot o) (covdDiag o) 1 = Mmat (Grot o) (covdDiag o) w2 := by
    rw [hcv]
    exact Mmat_weight_eq (Grot o) sg hσ0 w2 hw
  have hMstrain : Mmat (Gstrain o) (covdDiag o) 1 = Mmat (Gstrain o) (covdDiag o) w2 := by
    rw [hcv]
    exact Mmat_weight_eq (Gstrain o) sg hσ0 w2 hw
  have hMboth : Mmat (Gboth o) (covdDiag o) 1 = Mmat (Gboth o) (covdDiag o) w2 := by
    rw [hcv]
    exact Mmat_weight_eq (Gboth o) sg hσ0 w2 hw
  have hUrot : IsUnit (normalMat (Grot o) (covdDiag o) 1).det ↔
      IsUnit (normalMat (Grot o) (covdDiag o) w2).det := by
    rw [hcv]
    exact normal_isUnit_iff (Grot o) sg hσ0 w2 hw
  have hUstrain : IsUnit (normalMat (Gstrain o) (covdDiag o) 1).det ↔
      IsUnit (normalMat (Gstrain o) (covdDiag o) w2).det := by
    rw [hcv]
    exact normal_isUnit_iff (Gstrain o) sg hσ0 w2 hw
  have hUboth : IsUnit (normalMat (Gboth o) (covdDiag o) 1).det ↔
      IsUnit (normalMat (Gboth o) (covdDiag o) w2).det := by
    rw [hcv]
    exact normal_isUnit_iff (Gboth o) sg hσ0 w2 hw
  unfold strain_sphere
  by_cases h2 : paramsel = 2
  · rw [if_pos h2, if_pos h2]
    by_cases hU : IsUnit (normalMat (Gstrain o) (covdDiag o) 1).det
    · rw [if_pos hU, if_pos (hUstrain.mp hU),
        strainResult_weight_congr o 1 w2 hMstrain]
    · rw [if_neg hU, if_neg (fun hc => hU (hUstrain.mpr hc))]
  · rw [if_neg h2, if_neg h2]
    by_cases h1 : paramsel = 1
    · rw [if_pos h1, if_pos h1]
      by_cases hU : IsUnit (normalMat (Grot o) (covdDiag o) 1).det
      · rw [if_pos hU, if_pos (hUrot.mp hU), rotResult_weight_congr o 1 w2 hMrot]
      · rw [if_neg hU, if_neg (fun hc => hU (hUrot.mpr hc))]
    · rw [if_neg h1, if_neg h1]
      by_cases hU : IsUnit (normalMat (Gboth o) (covdDiag o) 1).det
      · rw [if_pos hU, if_pos (hUboth.mp hU), bothResult_weight_congr o 1 w2 hMboth]
      · rw [if_neg hU, if_neg (fun hc => hU (hUboth.mpr hc))]

end

end Hammond

namespace Hammond

noncomputable section

open scoped Classical

open Matrix

/-- One degree in radians. -/
def aR : ℝ := Real.pi / 180

theorem r0_pos : (0 : ℝ) < r0 := by
  unfold r0
  norm_num

theorem r0_ne : r0 ≠ 0 := ne_of_gt r0_pos

theorem aR_pos : (0 : ℝ) < aR := by
  unfold aR
  positivity

theorem aR_ne : aR ≠ 0 := ne_of_gt aR_pos

/-- Concrete three-station input: longitudes `(1, 0, -1)` degrees, colatitudes
`(91, 88, 91)` degrees (centroid colatitude 90 degrees, so that
`cos θ0 = 0`, `sin θ0 = 1`), velocities `(1,2,3)` and `(4,5,7)`, all
uncertainties 1. -/
def oX : Obs 3 :=
  { phi := fun i => if i.val = 0 then 1 else if i.val = 1 then 0 else -1
    theta := fun i => if i.val = 0 then 91 else if i.val = 1 then 88 else 91
    u_phi := fun i => if i.val = 0 then 1 else if i.val = 1 then 2 else 3
    u_theta := fun i => if i.val = 0 then 4 else if i.val = 1 then 5 else 7
    s_phi := fun _ => 1
    s_theta := fun _ => 1 }

theorem phi0_oX : phi0 oX = 0 := by
  simp [phi0, phiR, oX, Fin.sum_univ_three]
  try ring

theorem theta0_oX : theta0 oX = Real.pi / 2 := by
  simp [theta0, thetaR, oX, Fin.sum_univ_three]
  try ring

theorem cos_theta0_oX : Real.cos (theta0 oX) = 0 := by
  rw [theta0_oX, Real.cos_pi_div_two]

theorem sin_theta0_oX : Real.sin (theta0 oX) = 1 := by
  rw [theta0_oX, Real.sin_pi_div_two]

theorem covdDiag_oX : covdDiag oX = fun _ => 1 := by
  funext k
  unfold covdDiag oX
  split <;> norm_num

/-- The longitude offsets (in radians) of the stations of `oX`. -/
def phXv : ℕ → ℝ := fun j => (if j = 0 then 1 else if j = 1 then 0 else -1) * (Real.pi / 180)

/-- The colatitude offsets (in radians) of the stations of `oX`. -/
def thXv : ℕ → ℝ :=
  fun j => (if j = 0 then 91 else if j = 1 then 88 else 91) * (Real.pi / 180) - Real.pi / 2

theorem delPhi_oX (j : ℕ) (h : j < 3) : delPhi oX ⟨j, h⟩ = phXv j := by
  unfold delPhi
  rw [phi0_oX, sub_zero]
  rfl

theorem delTheta_oX (j : ℕ) (h : j < 3) : delTheta oX ⟨j, h⟩ = thXv j := by
  unfold delTheta
  rw [theta0_oX]
  rfl

/-- Entry values of `Grot oX`. -/
def GRX : ℕ → ℕ → ℝ := fun kv cv =>
  if kv % 2 = 0 then
    if cv = 0 then -r0 else if cv = 1 then 0 else r0 * thXv (kv / 2)
  else
    if cv = 0 then 0 else if cv = 1 then r0 else -(r0 * phXv (kv / 2))

theorem Grot_oX_apply (k : Fin (2 * 3)) (c : Fin 3) : Grot oX k c = GRX k.val c.val := by
  unfold Grot GRX site
  rw [cos_theta0_oX, sin_theta0_oX, delPhi_oX, delTheta_oX]
  split_ifs <;> ring

/-- Entry values of `Gstrain oX`. -/
def GSX : ℕ → ℕ → ℝ := fun kv cv =>
  if kv % 2 = 0 then
    if cv = 0 then r0 * phXv (kv / 2) else if cv = 1 then r0 * thXv (kv / 2) else 0
  else
    if cv = 0 then 0 else if cv = 1 then r0 * phXv (kv / 2) else r0 * thXv (kv / 2)

theorem Gstrain_oX_apply (k : Fin (2 * 3)) (c : Fin 3) : Gstrain oX k c = GSX k.val c.val := by
  unfold Gstrain GSX site
  rw [sin_theta0_oX, delPhi_oX, delTheta_oX]
  split_ifs <;> ring

/-- Entry values of `Gboth oX`. -/
def GBX : ℕ → ℕ → ℝ := fun kv cv =>
  if kv % 2 = 0 then
    if cv = 0 then -r0 else if cv = 1 then 0 else if cv = 2 then r0 * thXv (kv / 2)
    else if cv = 3 then r0 * phXv (kv / 2) else if cv = 4 then r0 * thXv (kv / 2) else 0
  else
    if cv = 0 then 0 else if cv = 1 then r0 else if cv = 2 then -(r0 * phXv (kv / 2))
    else if cv = 3 then 0 else if cv = 4 then r0 * phXv (kv / 2) else r0 * thXv (kv / 2)

theorem Gboth_oX_apply (k : Fin (2 * 3)) (c : Fin 6) : Gboth oX k c = GBX k.val c.val := by
  unfold Gboth GBX site
  rw [cos_theta0_oX, sin_theta0_oX, delPhi_oX, delTheta_oX]
  split_ifs <;> ring

end

end Hammond

namespace Hammond

noncomputable section

open scoped Classical

open Matrix

/-- Entries of `(Grot oX)ᵀ (Grot oX)`: the diagonal matrix
`diag(3 r0², 3 r0², 8 r0² aR²)`. -/
def ARX : ℕ → ℕ → ℝ := fun i j =>
  if i = j then (if i = 0 then 3 * r0 ^ 2 else if i = 1 then 3 * r0 ^ 2 else 8 * r0 ^ 2 * aR ^ 2)
  else 0

/-- Entries of the inverse of `ARX`. -/
def ARXi : ℕ → ℕ → ℝ := fun i j =>
  if i = j then
    (if i = 0 then (3 * r0 ^ 2)⁻¹ else if i = 1 then (3 * r0 ^ 2)⁻¹ else (8 * r0 ^ 2 * aR ^ 2)⁻¹)
  else 0

theorem normalMat_rot_oX :
    normalMat (Grot oX) (covdDiag oX) 0 = Matrix.of (fun i j : Fin 3 => ARX i.val j.val) := by
  have h0 : (0 : ℤ) ≠ 1 := by norm_num
  unfold normalMat
  rw [if_neg h0]
  funext i j
  rw [Matrix.mul_apply]
  simp only [Matrix.transpose_apply, Grot_oX_apply]
  rw [Fin.sum_univ_six]
  fin_cases i <;> fin_cases j <;>
    · simp +decide [GRX, ARX, phXv, thXv, aR]
      try ring_nf
      try norm_num

theorem rot_oX_mul_inv :
    Matrix.of (fun i j : Fin 3 => ARX i.val j.val) *
      Matrix.of (fun i j : Fin 3 => ARXi i.val j.val) = 1 := by
  funext i j
  rw [Matrix.mul_apply, Fin.sum_univ_three]
  fin_cases i <;> fin_cases j <;>
    · simp +decide [ARX, ARXi, Matrix.one_apply]
      try field_simp [r0_ne, aR_ne]
      try ring

theorem isUnit_rot_oX : IsUnit (normalMat (Grot oX) (covdDiag oX) 0).det := by
  rw [normalMat_rot_oX]
  exact Matrix.isUnit_det_of_right_inverse rot_oX_mul_inv

theorem inv_rot_oX :
    (normalMat (Grot oX) (covdDiag oX) 0)⁻¹ =
      Matrix.of (fun i j : Fin 3 => ARXi i.val j.val) := by
  rw [normalMat_rot_oX]
  exact Matrix.inv_eq_right_inv rot_oX_mul_inv

/-- Entries of `(Gstrain oX)ᵀ (Gstrain oX)`: the diagonal matrix
`diag(2, 8, 6) · r0² aR²`. -/
def ASX : ℕ → ℕ → ℝ := fun i j =>
  if i = j then
    (if i = 0 then 2 * r0 ^ 2 * aR ^ 2 else if i = 1 then 8 * r0 ^ 2 * aR ^ 2
     else 6 * r0 ^ 2 * aR ^ 2)
  else 0

/-- Entries of the inverse of `ASX`. -/
def ASXi : ℕ → ℕ → ℝ := fun i j =>
  if i = j then
    (if i = 0 then (2 * r0 ^ 2 * aR ^ 2)⁻¹ else if i = 1 then (8 * r0 ^ 2 * aR ^ 2)⁻¹
     else (6 * r0 ^ 2 * aR ^ 2)⁻¹)
  else 0

theorem normalMat_strain_oX :
    normalMat (Gstrain oX) (covdDiag oX) 0 = Matrix.of (fun i j : Fin 3 => ASX i.val j.val) := by
  have h0 : (0 : ℤ) ≠ 1 := by norm_num
  unfold normalMat
  rw [if_neg h0]
  funext i j
  rw [Matrix.mul_apply]
  simp only [Matrix.transpose_apply, Gstrain_oX_apply]
  rw [Fin.sum_univ_six]
  fin_cases i <;> fin_cases j <;>
    · simp +decide [GSX, ASX, phXv, thXv, aR]
      try ring_nf
      try norm_num

theorem strain_oX_mul_inv :
    Matrix.of (fun i j : Fin 3 => ASX i.val j.val) *
      Matrix.of (fun i j : Fin 3 => ASXi i.val j.val) = 1 := by
  funext i j
  rw [Matrix.mul_apply, Fin.sum_univ_three]
  fin_cases i <;> fin_cases j <;>
    · simp +decide [ASX, ASXi, Matrix.one_apply]
      try field_simp [r0_ne, aR_ne]
      try ring

theorem isUnit_strain_oX : IsUnit (normalMat (Gstrain oX) (covdDiag oX) 0).det := by
  rw [normalMat_strain_oX]
  exact Matrix.isUnit_det_of_right_inverse strain_oX_mul_inv

/-- Entries of `(Gboth oX)ᵀ (Gboth oX)`: block matrix, diagonal
`(3 r0², 3 r0², 8q, 2q, 8q, 6q)` with the extra symmetric pair
`(2,4) = (4,2) = 4q`, where `q = r0² aR²`. -/
def ABX : ℕ → ℕ → ℝ := fun i j =>
  if i = j then
    (if i = 0 then 3 * r0 ^ 2 else if i = 1 then 3 * r0 ^ 2
     else if i = 2 then 8 * r0 ^ 2 * aR ^ 2 else if i = 3 then 2 * r0 ^ 2 * aR ^ 2
     else if i = 4 then 8 * r0 ^ 2 * aR ^ 2 else 6 * r0 ^ 2 * aR ^ 2)
  else if (i = 2 ∧ j = 4) ∨ (i = 4 ∧ j = 2) then 4 * r0 ^ 2 * aR ^ 2
  else 0

/-- Entries of the inverse of `ABX`. -/
def ABXi : ℕ → ℕ → ℝ := fun i j =>
  if i = j then
    (if i = 0 then (3 * r0 ^ 2)⁻¹ else if i = 1 then (3 * r0 ^ 2)⁻¹
     else if i = 2 then (6 * r0 ^ 2 * aR ^ 2)⁻¹ else if i = 3 then (2 * r0 ^ 2 * aR ^ 2)⁻¹
     else if i = 4 then (6 * r0 ^ 2 * aR ^ 2)⁻¹ else (6 * r0 ^ 2 * aR ^ 2)⁻¹)
  else if (i = 2 ∧ j = 4) ∨ (i = 4 ∧ j = 2) then -(12 * r0 ^ 2 * aR ^ 2)⁻¹
  else 0

set_option maxHeartbeats 1000000 in
theorem normalMat_both_oX :
    normalMat (Gboth oX) (covdDiag oX) 0 = Matrix.of (fun i j : Fin 6 => ABX i.val j.val) := by
  have h0 : (0 : ℤ) ≠ 1 := by norm_num
  unfold normalMat
  rw [if_neg h0]
  funext i j
  rw [Matrix.mul_apply]
  simp only [Matrix.transpose_apply, Gboth_oX_apply]
  rw [Fin.sum_univ_six]
  fin_cases i <;> fin_cases j <;>
    · simp +decide [GBX, ABX, phXv, thXv, aR]
      try ring_nf
      try norm_num

set_option maxHeartbeats 1000000 in
theorem both_oX_mul_inv :
    Matrix.of (fun i j : Fin 6 => ABX i.val j.val) *
      Matrix.of (fun i j : Fin 6 => ABXi i.val j.val) = 1 := by
  funext i j
  rw [Matrix.mul_apply, Fin.sum_univ_six]
  fin_cases i <;> fin_cases j <;>
    · simp +decide [ABX, ABXi, Matrix.one_apply]
      try field_simp [r0_ne, aR_ne]
      try ring

theorem isUnit_both_oX : IsUnit (normalMat (Gboth oX) (covdDiag oX) 0).det := by
  rw [normalMat_both_oX]
  exact Matrix.isUnit_det_of_right_inverse both_oX_mul_inv

end

end Hammond

namespace Hammond

noncomputable section

open scoped Classical

open Matrix

/-- The stacked data vector of `oX` (`u_phi` block then `u_theta` block). -/
def dXv : ℕ → ℝ := fun kv =>
  if kv < 3 then (if kv = 0 then 1 else if kv = 1 then 2 else 3)
  else (if kv - 3 = 0 then 4 else if kv - 3 = 1 then 5 else 7)

theorem dvec_oX : dvec oX = fun k => dXv k.val := by
  funext k
  unfold dvec dXv
  by_cases h : (k : ℕ) < 3
  · rw [dif_pos h, if_pos h]
    rfl
  · rw [dif_neg h, if_neg h]
    rfl

/-- `(Grot oX)ᵀ · d` for the first run. -/
def gXv : ℕ → ℝ := fun c =>
  if c = 0 then -(9 * r0) else if c = 1 then 13 * r0 else 5 * (r0 * aR)

theorem Gtd_oX : (Grot oX)ᵀ.mulVec (dvec oX) = fun c : Fin 3 => gXv c.val := by
  funext c
  rw [Matrix.mulVec, dvec_oX]
  show ∑ k, (Grot oX)ᵀ c k * dXv k.val = gXv c.val
  simp only [Matrix.transpose_apply, Grot_oX_apply]
  rw [Fin.sum_univ_six]
  fin_cases c <;>
    · simp +decide [GRX, dXv, gXv, phXv, thXv, aR]
      try ring_nf
      try norm_num

/-- The first-run model parameters at `oX`. -/
def mXv : ℕ → ℝ := fun c =>
  if c = 0 then -(3 / r0) else if c = 1 then 13 / (3 * r0) else 5 / (8 * (r0 * aR))

theorem mSol_rot_oX : mSol oX (Grot oX) 0 = fun c : Fin 3 => mXv c.val := by
  unfold mSol Mmat
  rw [if_neg (by norm_num : (0 : ℤ) ≠ 1), ← Matrix.mulVec_mulVec, inv_rot_oX, Gtd_oX]
  funext c
  rw [Matrix.mulVec]
  show ∑ j : Fin 3, ARXi c.val j.val * gXv j.val = mXv c.val
  rw [Fin.sum_univ_three]
  fin_cases c <;>
    · simp +decide [ARXi, gXv, mXv]
      try field_simp [r0_ne, aR_ne]
      try ring

/-- The first-run predicted velocities at `oX` (interleaved as the rows of
`G`). -/
def dpXv : ℕ → ℝ := fun kv =>
  if kv = 0 then 29 / 8 else if kv = 1 then 89 / 24 else if kv = 2 then 7 / 4
  else if kv = 3 then 13 / 3 else if kv = 4 then 29 / 8 else 119 / 24

set_option maxHeartbeats 1000000 in
theorem dpred_rot_oX : dpredVec oX (Grot oX) 0 = fun k => dpXv k.val := by
  unfold dpredVec
  rw [mSol_rot_oX]
  funext k
  rw [Matrix.mulVec]
  show ∑ c, Grot oX k c * mXv c.val = dpXv k.val
  simp only [Grot_oX_apply]
  rw [Fin.sum_univ_three]
  fin_cases k <;>
    · simp +decide [GRX, mXv, dpXv, phXv, thXv, aR]
      try field_simp [Real.pi_ne_zero, r0_ne]
      try ring
      try field_simp [Real.pi_ne_zero, r0_ne]

theorem rotResult_u_phi_p (o : Obs n) (w : ℤ) :
    (rotResult o w).u_phi_p = fun i => dpredVec o (Grot o) w ⟨2 * i.val, by omega⟩ := rfl

theorem rotResult_u_theta_p (o : Obs n) (w : ℤ) :
    (rotResult o w).u_theta_p = fun i => dpredVec o (Grot o) w ⟨2 * i.val + 1, by omega⟩ := rfl

theorem uphip_oX : (rotResult oX 0).u_phi_p =
    fun i : Fin 3 => if i.val = 0 then 29 / 8 else if i.val = 1 then 7 / 4 else 29 / 8 := by
  rw [rotResult_u_phi_p, dpred_rot_oX]
  funext i
  fin_cases i <;> simp +decide [dpXv]

theorem uthp_oX : (rotResult oX 0).u_theta_p =
    fun i : Fin 3 => if i.val = 0 then 89 / 24 else if i.val = 1 then 13 / 3 else 119 / 24 := by
  rw [rotResult_u_theta_p, dpred_rot_oX]
  funext i
  fin_cases i <;> simp +decide [dpXv]

/-- The round-trip input: `oX` with the first run's predicted velocities
substituted for the observed velocities (same positions, uncertainties). -/
def oXr : Obs 3 :=
  { oX with u_phi := (rotResult oX 0).u_phi_p, u_theta := (rotResult oX 0).u_theta_p }

theorem Grot_oXr : Grot oXr = Grot oX := rfl

theorem covdDiag_oXr : covdDiag oXr = covdDiag oX := rfl

theorem oXr_u_phi : oXr.u_phi = (rotResult oX 0).u_phi_p := rfl

theorem oXr_u_theta : oXr.u_theta = (rotResult oX 0).u_theta_p := rfl

/-- The stacked data vector of the second run. -/
def d2Xv : ℕ → ℝ := fun kv =>
  if kv < 3 then (if kv = 0 then 29 / 8 else if kv = 1 then 7 / 4 else 29 / 8)
  else (if kv - 3 = 0 then 89 / 24 else if kv - 3 = 1 then 13 / 3 else 119 / 24)

theorem dvec_oXr : dvec oXr = fun k => d2Xv k.val := by
  funext k
  unfold dvec d2Xv
  by_cases h : (k : ℕ) < 3
  · rw [dif_pos h, if_pos h, oXr_u_phi, uphip_oX]
  · rw [dif_neg h, if_neg h, oXr_u_theta, uthp_oX]

/-- `(Grot oX)ᵀ · d` for the second run. -/
def g2Xv : ℕ → ℝ := fun c =>
  if c = 0 then -(139 / 12 * r0) else if c = 1 then 125 / 12 * r0 else 47 / 12 * (r0 * aR)

theorem Gtd_oXr : (Grot oX)ᵀ.mulVec (dvec oXr) = fun c : Fin 3 => g2Xv c.val := by
  funext c
  rw [Matrix.mulVec, dvec_oXr]
  show ∑ k, (Grot oX)ᵀ c k * d2Xv k.val = g2Xv c.val
  simp only [Matrix.transpose_apply, Grot_oX_apply]
  rw [Fin.sum_univ_six]
  fin_cases c <;>
    · simp +decide [GRX, d2Xv, g2Xv, phXv, thXv, aR]
      try ring_nf
      try norm_num

/-- The second-run model parameters. -/
def m2Xv : ℕ → ℝ := fun c =>
  if c = 0 then -(139 / (36 * r0)) else if c = 1 then 125 / (36 * r0)
  else 47 / (96 * (r0 * aR))

theorem mSol_rot_oXr : mSol oXr (Grot oXr) 0 = fun c : Fin 3 => m2Xv c.val := by
  unfold mSol Mmat
  rw [Grot_oXr, covdDiag_oXr, if_neg (by norm_num : (0 : ℤ) ≠ 1), ← Matrix.mulVec_mulVec,
    inv_rot_oX, Gtd_oXr]
  funext c
  rw [Matrix.mulVec]
  show ∑ j : Fin 3, ARXi c.val j.val * g2Xv j.val = m2Xv c.val
  rw [Fin.sum_univ_three]
  fin_cases c <;>
    · simp +decide [ARXi, g2Xv, m2Xv]
      try field_simp [r0_ne, aR_ne]
      try ring

/-- The second-run predicted velocities. -/
def dp2Xv : ℕ → ℝ := fun kv =>
  if kv = 0 then 1253 / 288 else if kv = 1 then 859 / 288 else if kv = 2 then 415 / 144
  else if kv = 3 then 125 / 36 else if kv = 4 then 1253 / 288 else 1141 / 288

set_option maxHeartbeats 1000000 in
theorem dpred_rot_oXr : dpredVec oXr (Grot oXr) 0 = fun k => dp2Xv k.val := by
  unfold dpredVec
  rw [mSol_rot_oXr, Grot_oXr]
  funext k
  rw [Matrix.mulVec]
  show ∑ c, Grot oX k c * m2Xv c.val = dp2Xv k.val
  simp only [Grot_oX_apply]
  rw [Fin.sum_univ_three]
  fin_cases k <;>
    · simp +decide [GRX, m2Xv, dp2Xv, phXv, thXv, aR]
      try field_simp [Real.pi_ne_zero, r0_ne]
      try ring
      try field_simp [Real.pi_ne_zero, r0_ne]

set_option maxHeartbeats 1000000 in
theorem chi2_oXr : chi2Of oXr (Grot oXr) 0 = 12605 / 20736 := by
  unfold chi2Of
  rw [dpred_rot_oXr, dvec_oXr]
  have hcv : covdDiag oXr = fun _ => 1 := covdDiag_oX
  rw [hcv]
  rw [Fin.sum_univ_six]
  simp +decide [d2Xv, dp2Xv]
  try norm_num

end

end Hammond

namespace Hammond

noncomputable section

open scoped Classical

open Matrix

variable {n : ℕ}

theorem rotResult_chi2 (o : Obs n) (w : ℤ) :
    (rotResult o w).chi2 = chi2Of o (Grot o) w := rfl

theorem rotResult_omega_r (o : Obs n) (w : ℤ) :
    (rotResult o w).omega_r = some (mSol o (Grot o) w 2) := rfl

theorem strain_sphere_rot (o : Obs n) (w : ℤ)
    (h : IsUnit (normalMat (Grot o) (covdDiag o) w).det) :
    strain_sphere o w 1 = some (rotResult o w) := by
  unfold strain_sphere
  rw [if_neg (by norm_num : (1 : ℤ) ≠ 2), if_pos rfl, if_pos h]

/-- C1 (round trip): for the three-station input `oX` in rotation-only mode
the claim fails on the code. Re-running `strain_sphere` on `oXr`, which is
`oX` with the first run's predicted velocities `u_phi_p, u_theta_p`
substituted for the observations, yields `chi2 = 12605/20736 ≠ 0` and a
different recovered rotation rate `omega_r`. The cause is that
`d = hstack((u_phi, u_theta))` stacks the data in two blocks while the rows
of `G` (and the returned predictions `dpred[::2]`, `dpred[1::2]`) interleave
the φ- and θ-components per station. -/
theorem C1_roundtrip_fails :
    Option.map SphereResult.chi2 (strain_sphere oXr 0 1) = some (12605 / 20736) ∧
    (12605 / 20736 : ℝ) ≠ 0 ∧
    Option.map SphereResult.omega_r (strain_sphere oXr 0 1) ≠
      Option.map SphereResult.omega_r (strain_sphere oX 0 1) := by
  have hUr : IsUnit (normalMat (Grot oXr) (covdDiag oXr) 0).det := by
    rw [Grot_oXr, covdDiag_oXr]
    exact isUnit_rot_oX
  have hxr : strain_sphere oXr 0 1 = some (rotResult oXr 0) := strain_sphere_rot oXr 0 hUr
  have hx : strain_sphere oX 0 1 = some (rotResult oX 0) := strain_sphere_rot oX 0 isUnit_rot_oX
  refine ⟨?_, by norm_num, ?_⟩
  · rw [hxr, Option.map_some', rotResult_chi2, chi2_oXr]
  · rw [hx, hxr, Option.map_some', Option.map_some', rotResult_omega_r, rotResult_omega_r,
      mSol_rot_oXr, mSol_rot_oX]
    have key : ∀ x : ℝ, x ≠ 0 → (47 : ℝ) / (96 * x) ≠ 5 / (8 * x) := by
      intro x hx96 h
      rw [div_eq_div_iff (mul_ne_zero (by norm_num) hx96)
        (mul_ne_zero (by norm_num) hx96)] at h
      have h104 : (104 : ℝ) * x = 0 := by linarith
      rcases mul_eq_zero.mp h104 with hh | hh
      · norm_num at hh
      · exact hx96 hh
    have h2 : m2Xv 2 ≠ mXv 2 := by
      unfold m2Xv mXv
      norm_num
      exact key (r0 * aR) (mul_ne_zero r0_ne aR_ne)
    intro hc
    simp only [Option.some.injEq] at hc
    exact h2 (by simpa +decide using hc)

end

end Hammond

namespace Hammond

noncomputable section

open scoped Classical

open Matrix

variable {n : ℕ}

theorem strain_sphere_strainmode (o : Obs n) (w : ℤ)
    (h : IsUnit (normalMat (Gstrain o) (covdDiag o) w).det) :
    strain_sphere o w 2 = some (strainResult o w) := by
  unfold strain_sphere
  rw [if_pos rfl, if_pos h]

theorem strain_sphere_bothmode (o : Obs n) (w p : ℤ) (h1 : p ≠ 1) (h2 : p ≠ 2)
    (h : IsUnit (normalMat (Gboth o) (covdDiag o) w).det) :
    strain_sphere o w p = some (bothResult o w) := by
  unfold strain_sphere
  rw [if_neg h2, if_neg h1, if_pos h]

theorem strainResult_chi2 (o : Obs n) (w : ℤ) :
    (strainResult o w).chi2 = chi2Of o (Gstrain o) w := rfl

theorem bothResult_chi2 (o : Obs n) (w : ℤ) :
    (bothResult o w).chi2 = chi2Of o (Gboth o) w := rfl

theorem covdDiag_ne (o : Obs n) (hsp : ∀ i, o.s_phi i ≠ 0) (hst : ∀ i, o.s_theta i ≠ 0) :
    ∀ k, covdDiag o k ≠ 0 := by
  intro k
  unfold covdDiag
  split
  · exact pow_ne_zero 2 (hsp _)
  · exact pow_ne_zero 2 (hst _)

theorem chi2Of_eq (o : Obs n) {p : ℕ} (G : Matrix (Fin (2 * n)) (Fin p) ℝ) (weight : ℤ)
    (h : ∀ k, covdDiag o k ≠ 0) :
    chi2Of o G weight =
      (∑ k, (dvec o k - dpredVec o G weight k) ^ 2 / covdDiag o k) / (2 * n) := by
  unfold chi2Of
  congr 1
  apply Finset.sum_congr rfl
  intro k _
  rw [if_neg (h k)]
  ring

/-- C3: in every mode the returned chi2 equals
`(d − G·m)ᵀ · covd⁻¹ · (d − G·m) / N` with `N = 2n` — the sample count, not a
degrees-of-freedom-corrected `N − p`; the same divisor `2n` appears in the
3-parameter and the 6-parameter modes. `covd` is diagonal with the squared
input uncertainties, so the quadratic form is the sum of squared residuals
weighted by the reciprocal variances. -/
theorem C3_chi2_normalization (o : Obs n) (weight : ℤ)
    (hsp : ∀ i, o.s_phi i ≠ 0) (hst : ∀ i, o.s_theta i ≠ 0) :
    (IsUnit (normalMat (Grot o) (covdDiag o) weight).det →
      Option.map SphereResult.chi2 (strain_sphere o weight 1) =
        some ((∑ k, (dvec o k - dpredVec o (Grot o) weight k) ^ 2 / covdDiag o k) / (2 * n))) ∧
    (IsUnit (normalMat (Gstrain o) (covdDiag o) weight).det →
      Option.map SphereResult.chi2 (strain_sphere o weight 2) =
        some ((∑ k, (dvec o k - dpredVec o (Gstrain o) weight k) ^ 2 / covdDiag o k) / (2 * n))) ∧
    (∀ paramsel : ℤ, paramsel ≠ 1 → paramsel ≠ 2 →
      IsUnit (normalMat (Gboth o) (covdDiag o) weight).det →
      Option.map SphereResult.chi2 (strain_sphere o weight paramsel) =
        some ((∑ k, (dvec o k - dpredVec o (Gboth o) weight k) ^ 2 / covdDiag o k) / (2 * n))) := by
  refine ⟨?_, ?_, ?_⟩
  · intro h
    rw [strain_sphere_rot o weight h, Option.map_some', rotResult_chi2,
      chi2Of_eq o (Grot o) weight (covdDiag_ne o hsp hst)]
  · intro h
    rw [strain_sphere_strainmode o weight h, Option.map_some', strainResult_chi2,
      chi2Of_eq o (Gstrain o) weight (covdDiag_ne o hsp hst)]
  · intro paramsel h1 h2 h
    rw [strain_sphere_bothmode o weight paramsel h1 h2 h, Option.map_some', bothResult_chi2,
      chi2Of_eq o (Gboth o) weight (covdDiag_ne o hsp hst)]

theorem C3_chi2_normalization_witness :
    Option.map SphereResult.chi2 (strain_sphere oX 0 1) =
      some ((∑ k, (dvec oX k - dpredVec oX (Grot oX) 0 k) ^ 2 / covdDiag oX k) / (2 * 3)) :=
  (C3_chi2_normalization oX 0 (fun i => by norm_num [oX]) (fun i => by norm_num [oX])).1
    isUnit_rot_oX

/-- C4 amended: in rotation-only mode the strain values are NaN but their
uncertainties are set to 0 (not NaN); in strain-only mode the rotation,
translation and Euler outputs are NaN and so are `s_omega_r`, `s_OMEGA`,
`s_THETA_p`, `s_PHI_p`, but `s_U_theta` and `s_U_phi` are set to 0 (not
NaN). -/
theorem C4_nan_pattern (o : Obs n) (weight : ℤ)
    (hrot : IsUnit (normalMat (Grot o) (covdDiag o) weight).det)
    (hstr : IsUnit (normalMat (Gstrain o) (covdDiag o) weight).det) :
    Option.map SphereResult.e_phiphi (strain_sphere o weight 1) = some none ∧
    Option.map SphereResult.e_thetaphi (strain_sphere o weight 1) = some none ∧
    Option.map SphereResult.e_thetatheta (strain_sphere o weight 1) = some none ∧
    Option.map SphereResult.s_e_phiphi (strain_sphere o weight 1) = some (some 0) ∧
    Option.map SphereResult.s_e_thetaphi (strain_sphere o weight 1) = some (some 0) ∧
    Option.map SphereResult.s_e_thetatheta (strain_sphere o weight 1) = some (some 0) ∧
    Option.map SphereResult.omega_r (strain_sphere o weight 2) = some none ∧
    Option.map SphereResult.U_theta (strain_sphere o weight 2) = some none ∧
    Option.map SphereResult.U_phi (strain_sphere o weight 2) = some none ∧
    Option.map SphereResult.OMEGA (strain_sphere o weight 2) = some none ∧
    Option.map SphereResult.THETA_p (strain_sphere o weight 2) = some none ∧
    Option.map SphereResult.PHI_p (strain_sphere o weight 2) = some none ∧
    Option.map SphereResult.r_PHITHETA (strain_sphere o weight 2) = some none ∧
    Option.map SphereResult.s_omega_r (strain_sphere o weight 2) = some none ∧
    Option.map SphereResult.s_OMEGA (strain_sphere o weight 2) = some none ∧
    Option.map SphereResult.s_THETA_p (strain_sphere o weight 2) = some none ∧
    Option.map SphereResult.s_PHI_p (strain_sphere o weight 2) = some none ∧
    Option.map SphereResult.s_U_theta (strain_sphere o weight 2) = some (some 0) ∧
    Option.map SphereResult.s_U_phi (strain_sphere o weight 2) = some (some 0) := by
  rw [strain_sphere_rot o weight hrot, strain_sphere_strainmode o weight hstr]
  simp only [Option.map_some']
  exact ⟨rfl, rfl, rfl, rfl, rfl, rfl, rfl, rfl, rfl, rfl, rfl, rfl, rfl, rfl, rfl, rfl,
    rfl, rfl, rfl⟩

/-- C4 as stated is false: at `oX` in rotation-only mode the uncertainty
`s_e_phiphi` is `0`, not NaN. -/
theorem C4_counterexample :
    Option.map SphereResult.s_e_phiphi (strain_sphere oX 0 1) = some (some 0) ∧
    (some (some (0 : ℝ)) : Option (Option ℝ)) ≠ some none := by
  constructor
  · rw [strain_sphere_rot oX 0 isUnit_rot_oX, Option.map_some']
    rfl
  · simp

theorem C4_nan_pattern_witness :
    Option.map SphereResult.e_phiphi (strain_sphere oX 0 1) = some none ∧
    Option.map SphereResult.s_U_theta (strain_sphere oX 0 2) = some (some 0) := by
  have h := C4_nan_pattern oX 0 isUnit_rot_oX isUnit_strain_oX
  obtain ⟨h1, -, -, -, -, -, -, -, -, -, -, -, -, -, -, -, -, h18, -⟩ := h
  exact ⟨h1, h18⟩

/-- C5: for every `paramsel` other than 1 and 2 the design matrix has 6
columns (versus 3 in the single modes) and all six model components come from
the least-squares solution `m`, none set to NaN: `ω_θ = m 0` and `ω_φ = m 1`
are returned through `U_phi = -r0·m 0` and `U_theta = r0·m 1`, `ω_r = m 2`,
and the strain components are `m 3, m 4, m 5`. -/
theorem C5_default_both (o : Obs n) (weight paramsel : ℤ)
    (h1 : paramsel ≠ 1) (h2 : paramsel ≠ 2) :
    Gcols paramsel = 6 ∧
    (IsUnit (normalMat (Gboth o) (covdDiag o) weight).det →
      Option.map SphereResult.omega_r (strain_sphere o weight paramsel) =
        some (some (mSol o (Gboth o) weight 2)) ∧
      Option.map SphereResult.U_theta (strain_sphere o weight paramsel) =
        some (some (r0 * mSol o (Gboth o) weight 1)) ∧
      Option.map SphereResult.U_phi (strain_sphere o weight paramsel) =
        some (some (-r0 * mSol o (Gboth o) weight 0)) ∧
      Option.map SphereResult.e_phiphi (strain_sphere o weight paramsel) =
        some (some (mSol o (Gboth o) weight 3)) ∧
      Option.map SphereResult.e_thetaphi (strain_sphere o weight paramsel) =
        some (some (mSol o (Gboth o) weight 4)) ∧
      Option.map SphereResult.e_thetatheta (strain_sphere o weight paramsel) =
        some (some (mSol o (Gboth o) weight 5))) := by
  constructor
  · unfold Gcols
    rw [if_pos ⟨h2, h1⟩]
  · intro h
    rw [strain_sphere_bothmode o weight paramsel h1 h2 h]
    simp only [Option.map_some']
    exact ⟨rfl, rfl, rfl, rfl, rfl, rfl⟩

theorem C5_default_both_witness :
    Gcols 0 = 6 ∧
    Option.map SphereResult.e_phiphi (strain_sphere oX 0 0) =
      some (some (mSol oX (Gboth oX) 0 3)) := by
  have h := C5_default_both oX 0 0 (by norm_num) (by norm_num)
  exact ⟨h.1, ((h.2 isUnit_both_oX).2.2.2.1)⟩

end

end Hammond

namespace Hammond

noncomputable section

open scoped Classical

open Matrix

variable {n : ℕ}

/-- The residuals of the least-squares line fit are negated (hence equal in
absolute value) when the fitted data is an affine reflection `c - y`: this
relates the code's fit of `90 - theta` to a fit of the colatitude itself. -/
theorem lineResid_const_sub (o : Obs n) (y : Fin n → ℝ) (c : ℝ) (i : Fin n) :
    lineResid o (fun j => c - y j) i = -(lineResid o y i) := by
  have hn0 : (0 : ℝ) < (n : ℝ) := by exact_mod_cast i.pos
  have hn : (n : ℝ) ≠ 0 := ne_of_gt hn0
  unfold lineResid
  simp only
  have hSy : (∑ j, (c - y j)) = (n : ℝ) * c - ∑ j, y j := by
    rw [Finset.sum_sub_distrib, Finset.sum_const, Finset.card_univ, Fintype.card_fin,
      nsmul_eq_mul]
  have hSxy : (∑ j, phiR o j * (c - y j)) =
      c * (∑ j, phiR o j) - ∑ j, phiR o j * y j := by
    have he : ∀ j ∈ Finset.univ, phiR o j * (c - y j) = c * phiR o j - phiR o j * y j :=
      fun j _ => by ring
    rw [Finset.sum_congr rfl he, Finset.sum_sub_distrib, ← Finset.mul_sum]
  rw [hSy, hSxy]
  by_cases hd : (n : ℝ) * (∑ j, (phiR o j) ^ 2) - (∑ j, phiR o j) ^ 2 = 0
  · rw [if_pos hd, if_pos hd]
    field_simp
    ring
  · rw [if_neg hd, if_neg hd]
    field_simp
    ring

/-- C6 amended: whenever the geometry is collinear in any of the three senses
(line-fit residuals of the colatitude against the longitude all below `1e-5`,
all longitudes within `1e-5` of their mean, or all colatitudes within `1e-5`
of their mean), `strain_sphere` raises the collinearity warning; it raises no
error of its own and returns the full result tuple whenever the normal matrix
is still invertible (the matrix inversion itself fails on an exactly singular
normal matrix). -/
theorem C6_collinearity_warning (o : Obs n) (weight : ℤ)
    (h : (∀ i, |lineResid o (thetaR o) i| < 1 / 100000) ∨
         (∀ i, |phiR o i - phi0 o| < 1 / 100000) ∨
         (∀ i, |thetaR o i - theta0 o| < 1 / 100000)) :
    collinWarning o ∧
    (IsUnit (normalMat (Grot o) (covdDiag o) weight).det →
      (strain_sphere o weight 1).isSome) ∧
    (IsUnit (normalMat (Gstrain o) (covdDiag o) weight).det →
      (strain_sphere o weight 2).isSome) ∧
    (∀ paramsel : ℤ, paramsel ≠ 1 → paramsel ≠ 2 →
      IsUnit (normalMat (Gboth o) (covdDiag o) weight).det →
      (strain_sphere o weight paramsel).isSome) := by
  refine ⟨?_, ?_, ?_, ?_⟩
  · rcases h with h | h | h
    · left
      intro i
      have hres : lineResid o (dcVec o) i = -(lineResid o (thetaR o) i) := by
        have : dcVec o = fun j => (90 : ℝ) - thetaR o j := rfl
        rw [this, lineResid_const_sub]
      rw [hres, abs_neg]
      exact h i
    · right
      exact Or.inl h
    · right
      exact Or.inr h
  · intro hU
    rw [strain_sphere_rot o weight hU]
    rfl
  · intro hU
    rw [strain_sphere_strainmode o weight hU]
    rfl
  · intro paramsel h1 h2 hU
    rw [strain_sphere_bothmode o weight paramsel h1 h2 hU]
    rfl

/-- A collinear but still invertible input: all three stations at colatitude
90 degrees, longitudes `(1, 0, -1)` degrees. -/
def oZ : Obs 3 :=
  { phi := fun i => if i.val = 0 then 1 else if i.val = 1 then 0 else -1
    theta := fun _ => 90
    u_phi := fun _ => 1
    u_theta := fun _ => 1
    s_phi := fun _ => 1
    s_theta := fun _ => 1 }

theorem phi0_oZ : phi0 oZ = 0 := by
  simp [phi0, phiR, oZ, Fin.sum_univ_three]
  try ring

theorem theta0_oZ : theta0 oZ = Real.pi / 2 := by
  simp [theta0, thetaR, oZ, Fin.sum_univ_three]
  try ring

theorem covdDiag_oZ : covdDiag oZ = fun _ => 1 := by
  funext k
  unfold covdDiag oZ
  split <;> norm_num

theorem delPhi_oZ (j : ℕ) (h : j < 3) : delPhi oZ ⟨j, h⟩ = phXv j := by
  unfold delPhi
  rw [phi0_oZ, sub_zero]
  rfl

theorem delTheta_oZ (j : ℕ) (h : j < 3) : delTheta oZ ⟨j, h⟩ = 0 := by
  unfold delTheta
  rw [theta0_oZ]
  show (90 : ℝ) * (Real.pi / 180) - Real.pi / 2 = 0
  ring

/-- Entry values of `Grot oZ`. -/
def GRZ : ℕ → ℕ → ℝ := fun kv cv =>
  if kv % 2 = 0 then
    if cv = 0 then -r0 else 0
  else
    if cv = 0 then 0 else if cv = 1 then r0 else -(r0 * phXv (kv / 2))

theorem Grot_oZ_apply (k : Fin (2 * 3)) (c : Fin 3) : Grot oZ k c = GRZ k.val c.val := by
  unfold Grot GRZ site
  rw [theta0_oZ, Real.cos_pi_div_two, Real.sin_pi_div_two, delPhi_oZ, delTheta_oZ]
  split_ifs <;> ring

/-- Entries of `(Grot oZ)ᵀ (Grot oZ)`: `diag(3 r0², 3 r0², 2 r0² aR²)`. -/
def AZv : ℕ → ℕ → ℝ := fun i j =>
  if i = j then (if i = 0 then 3 * r0 ^ 2 else if i = 1 then 3 * r0 ^ 2 else 2 * r0 ^ 2 * aR ^ 2)
  else 0

/-- Entries of the inverse of `AZv`. -/
def AZvi : ℕ → ℕ → ℝ := fun i j =>
  if i = j then
    (if i = 0 then (3 * r0 ^ 2)⁻¹ else if i = 1 then (3 * r0 ^ 2)⁻¹ else (2 * r0 ^ 2 * aR ^ 2)⁻¹)
  else 0

theorem normalMat_rot_oZ :
    normalMat (Grot oZ) (covdDiag oZ) 0 = Matrix.of (fun i j : Fin 3 => AZv i.val j.val) := by
  unfold normalMat
  rw [if_neg (by norm_num : (0 : ℤ) ≠ 1)]
  funext i j
  rw [Matrix.mul_apply]
  simp only [Matrix.transpose_apply, Grot_oZ_apply]
  rw [Fin.sum_univ_six]
  fin_cases i <;> fin_cases j <;>
    · simp +decide [GRZ, AZv, phXv, aR]
      try ring_nf
      try norm_num

theorem rot_oZ_mul_inv :
    Matrix.of (fun i j : Fin 3 => AZv i.val j.val) *
      Matrix.of (fun i j : Fin 3 => AZvi i.val j.val) = 1 := by
  funext i j
  rw [Matrix.mul_apply, Fin.sum_univ_three]
  fin_cases i <;> fin_cases j <;>
    · simp +decide [AZv, AZvi, Matrix.one_apply]
      try field_simp [r0_ne, aR_ne]
      try ring

theorem isUnit_rot_oZ : IsUnit (normalMat (Grot oZ) (covdDiag oZ) 0).det := by
  rw [normalMat_rot_oZ]
  exact Matrix.isUnit_det_of_right_inverse rot_oZ_mul_inv

theorem oZ_theta_collinear : ∀ i, |thetaR oZ i - theta0 oZ| < 1 / 100000 := by
  intro i
  have hz : thetaR oZ i - theta0 oZ = 0 := by
    rw [theta0_oZ]
    show (90 : ℝ) * (Real.pi / 180) - Real.pi / 2 = 0
    ring
  rw [hz, abs_zero]
  norm_num

theorem C6_collinearity_warning_witness :
    collinWarning oZ ∧ (strain_sphere oZ 0 1).isSome := by
  have h := C6_collinearity_warning oZ 0 (Or.inr (Or.inr oZ_theta_collinear))
  exact ⟨h.1, h.2.1 isUnit_rot_oZ⟩

/-- A fully degenerate input: all stations at the same position. -/
def oW : Obs 3 :=
  { phi := fun _ => 1
    theta := fun _ => 90
    u_phi := fun _ => 1
    u_theta := fun _ => 1
    s_phi := fun _ => 1
    s_theta := fun _ => 1 }

theorem phi0_oW : phi0 oW = Real.pi / 180 := by
  simp [phi0, phiR, oW, Fin.sum_univ_three]
  try ring

theorem theta0_oW : theta0 oW = Real.pi / 2 := by
  simp [theta0, thetaR, oW, Fin.sum_univ_three]
  try ring

theorem delPhi_oW (i : Fin 3) : delPhi oW i = 0 := by
  unfold delPhi
  rw [phi0_oW]
  show (1 : ℝ) * (Real.pi / 180) - Real.pi / 180 = 0
  ring

theorem delTheta_oW (i : Fin 3) : delTheta oW i = 0 := by
  unfold delTheta
  rw [theta0_oW]
  show (90 : ℝ) * (Real.pi / 180) - Real.pi / 2 = 0
  ring

theorem Gboth_oW_col2 (k : Fin (2 * 3)) : Gboth oW k 2 = 0 := by
  unfold Gboth
  simp +decide [delPhi_oW, delTheta_oW]

theorem normal_oW_row2 (j : Fin 6) : normalMat (Gboth oW) (covdDiag oW) 1 2 j = 0 := by
  unfold normalMat
  rw [if_pos rfl]
  rw [Matrix.mul_apply]
  apply Finset.sum_eq_zero
  intro k _
  rw [Matrix.mul_apply]
  have hz : ∀ l ∈ Finset.univ, (Gboth oW)ᵀ 2 l * Wdiag (covdDiag oW) l k = 0 := by
    intro l _
    rw [Matrix.transpose_apply, Gboth_oW_col2, zero_mul]
  rw [Finset.sum_eq_zero hz, zero_mul]

/-- C6 as stated is false: for the fully degenerate (collinear) input `oW`
the collinearity warning fires but `np.linalg.inv` fails on the exactly
singular normal matrix, so no result tuple is returned. -/
theorem C6_counterexample : collinWarning oW ∧ strain_sphere oW 1 0 = none := by
  constructor
  · right
    right
    intro i
    have hz : thetaR oW i - theta0 oW = 0 := by
      rw [theta0_oW]
      show (90 : ℝ) * (Real.pi / 180) - Real.pi / 2 = 0
      ring
    rw [hz, abs_zero]
    norm_num
  · unfold strain_sphere
    rw [if_neg (by norm_num : (0 : ℤ) ≠ 2), if_neg (by norm_num : (0 : ℤ) ≠ 1)]
    rw [if_neg]
    rw [Matrix.det_eq_zero_of_row_eq_zero 2 normal_oW_row2]
    simp

end

end Hammond

namespace Hammond

noncomputable section

open scoped Classical

open Matrix

/-- C7 amended: for each triangle, `compute` converts the vertex latitude to
`latitude - 90` (the negative of the colatitude `90 - latitude`), negates the
north velocity to form `u_theta`, copies the east velocity and the
uncertainties, and invokes `strain_sphere` with `weight = 1` and
`paramsel = 0` (which is neither 1 nor 2, hence "both" mode with a 6-column
design matrix). -/
theorem C7_compute_conversion (v : Fin 3 → TriVertex) :
    (computeArgs v).1.theta = (fun i => (v i).nlat - 90) ∧
    (∀ i, (computeArgs v).1.theta i = -(90 - (v i).nlat)) ∧
    (computeArgs v).1.phi = (fun i => (v i).elon) ∧
    (computeArgs v).1.u_phi = (fun i => (v i).evel) ∧
    (computeArgs v).1.u_theta = (fun i => -(v i).nvel) ∧
    (computeArgs v).1.s_phi = (fun i => (v i).se) ∧
    (computeArgs v).1.s_theta = (fun i => (v i).sn) ∧
    (computeArgs v).2.1 = 1 ∧
    (computeArgs v).2.2 = 0 ∧
    Gcols (computeArgs v).2.2 = 6 ∧
    computeTriangleCall v = strain_sphere (computeArgs v).1 1 0 := by
  refine ⟨rfl, ?_, rfl, rfl, rfl, rfl, rfl, rfl, rfl, ?_, rfl⟩
  · intro i
    show (v i).nlat - 90 = -(90 - (v i).nlat)
    ring
  · unfold Gcols
    rw [if_pos]
    show ¬(0 : ℤ) = 2 ∧ ¬(0 : ℤ) = 1
    norm_num

/-- A concrete triangle vertex list with latitude 40 at the first vertex. -/
def vC : Fin 3 → TriVertex := fun i =>
  { elon := if i.val = 0 then -123 else if i.val = 1 then -122 else -124
    nlat := if i.val = 0 then 40 else if i.val = 1 then 41 else 42
    evel := 1
    nvel := 2
    se := 1
    sn := 1 }

/-- C7 as stated is false: `compute` maps latitude 40 to `40 - 90 = -50`, not
to the colatitude `90 - 40 = 50`. -/
theorem C7_counterexample : (computeArgs vC).1.theta 0 ≠ 90 - (vC 0).nlat := by
  show ((vC 0).nlat - 90 : ℝ) ≠ 90 - (vC 0).nlat
  norm_num [vC]

end

end Hammond

namespace Hammond

noncomputable section

open scoped Classical

theorem C2_weighted_eq_unweighted_equal_sigma_witness :
    (0 : ℝ) < 1 ∧ strain_sphere oX 1 0 = strain_sphere oX 0 0 :=
  ⟨by norm_num,
    C2_weighted_eq_unweighted_equal_sigma oX 0 0 1 (by norm_num) (by norm_num)
      (fun i => rfl) (fun i => rfl) (by norm_num)⟩

end

end Hammond
